import Mathlib

/-!
The erosd ladder (`ladder.go`): match-result settlement, the division table and the
map pool.

A shallow embedding of `NewMatchResult`, `NewMatchResultPlayer`, `initDivisions`,
`Divisions.GetDivision`, `Divisions.GetDifference`, `Maps.Get` and `Maps.Random`
together with the data they read and write.  Go pointers to sessions become explicit
values threaded through the call; the persistence layer, the session cache and the
lock coordinator become fields of an explicit `World`, and every externally visible
action is also appended to a chronological trace.  `int64` arithmetic is arithmetic on
`Int` followed by `wrapInt64`; loops whose termination depends on their arguments take
an iteration budget, and a run-time panic is an explicit outcome.

Code that `ladder.go` calls but does not define (`ParseBattleNetRegion`,
`ParseBattleNetProfileUrl`, `characterCache.Get`, the `Client` methods) is taken as a
parameter, collected in `Env`.
-/

namespace Erosd

/-! ## Machine integers -/

/-- Two's-complement wrap of a mathematical integer into the Go `int64` range. -/
def wrapInt64 (x : Int) : Int :=
  (x + 9223372036854775808) % 18446744073709551616 - 9223372036854775808

/-! ## Errors -/

/-- The error values `NewMatchResult` can return.  The first nine are the
`ErrLadder...` variables of `ladder.go`; `ErrDbInsert` is declared elsewhere in the
package; `Persistence code` stands for an error value produced by the persistence
layer itself (the `err` of `dbMap.SelectInt`). -/
inductive LadderError where
  | ErrLadderPlayerNotFound
  | ErrLadderClientNotInvolved
  | ErrLadderInvalidMatchParticipents
  | ErrLadderInvalidMap
  | ErrLadderInvalidFormat
  | ErrLadderDuplicateReplay
  | ErrLadderGameTooShort
  | ErrLadderWrongOpponent
  | ErrLadderWrongMap
  | ErrDbInsert
  | Persistence (code : Nat)
  deriving DecidableEq, Repr

/-! ## Data model -/

/-- A `BattleNetRegion` value (an integer enumeration declared outside `ladder.go`). -/
abbrev BattleNetRegion := Int

/-- The `Map` struct. -/
structure Map where
  Id : Int
  Region : BattleNetRegion
  BattleNetID : Int
  BattleNetName : String
  InRankedPool : Bool
  deriving DecidableEq, Repr

/-- The `MatchResult` struct. -/
structure MatchResult where
  Id : Int
  MapId : Int
  MatchmakerMatchId : Int
  DateTime : Int
  deriving DecidableEq, Repr

/-- The `MatchResultPlayer` struct. -/
structure MatchResultPlayer where
  Id : Int
  MatchId : Int
  ClientId : Int
  CharacterId : Int
  PointsBefore : Int
  PointsAfter : Int
  PointsDifference : Int
  Race : String
  Victory : Bool
  deriving DecidableEq, Repr

/-- The `MatchResultSource` struct. -/
structure MatchResultSource where
  Id : Int
  MatchId : Int
  ReplayHash : String
  deriving DecidableEq, Repr

/-- One entry of `replay.Players` (the fields `ladder.go` reads). -/
structure ReplayPlayer where
  Url : String
  GameRace : String
  Victory : String
  deriving DecidableEq, Repr

/-- The parsed game record (the fields `ladder.go` reads). -/
structure Replay where
  Region : String
  MapName : String
  GameLength : Int
  Players : List ReplayPlayer
  Observers : List ReplayPlayer
  Filehash : String
  UnixTimestamp : Int
  deriving DecidableEq, Repr

/-- A character record as returned by `characterCache.Get` (the fields read). -/
structure Character where
  Id : Int
  ClientId : Int
  deriving DecidableEq, Repr

/-- A live session (`*Client`).  The four named fields are the ones `ladder.go` reads
or writes; `Other` encodes every remaining field of the struct, which `ladder.go`
never touches directly. -/
structure Client where
  Id : Int
  LadderPoints : Int
  PendingMatchmakingId : Int
  PendingMatchmakingOpponentId : Int
  Other : Nat
  deriving DecidableEq, Repr

/-- Functions of the package that `ladder.go` calls but does not define. -/
structure Env where
  ParseBattleNetRegion : String → BattleNetRegion
  ParseBattleNetProfileUrl : String → BattleNetRegion × Int × Int
  characterCacheGet : BattleNetRegion → Int → Int → Option Character
  IsMatchedWith : Client → Client → Bool
  IsOnMap : Client → Int → Bool
  ForefeitMatchmadeMatch : Client → Client
  Defeat : Client → Client → Client × Client

/-! ## Persistence layer, session cache, trace -/

/-- The tables `NewMatchResult` reads or writes, with the last identifier handed out
by each auto-increment key. -/
structure Db where
  sources : List MatchResultSource
  results : List MatchResult
  players : List MatchResultPlayer
  clients : List Client
  sourceSeq : Nat
  resultSeq : Nat
  playerSeq : Nat
  deriving DecidableEq, Repr

/-- Externally visible actions of one call, in the order they happen. -/
inductive Effect where
  | SelectCount (hash : String)
  | LockIds (a b : Int)
  | UnlockIds (a b : Int)
  | Forfeit (clientId : Int)
  | InsertSource (hash : String)
  | InsertResult
  | Defeat (winner loser : Int)
  | ClearPending (clientId : Int)
  | UpdateClients (a b : Int)
  | InsertPlayers (a b : Int)
  | Broadcast (clientId : Int)
  deriving DecidableEq, Repr

/-- The process state around one call: the map pool (`maps`, in iteration order), the
persistence layer (`dbMap`), the live sessions reachable through `clientCache`, and
the trace of actions so far.  The session the argument `client` points to is threaded
through the call separately; `NewMatchResult` only ever asks the cache for an id
different from `client.Id`. -/
structure World where
  maps : List Map
  db : Db
  cache : List Client
  trace : List Effect
  deriving DecidableEq, Repr

/-- Which persistence calls fail during one call of `NewMatchResult`.
`count = some e`: `SelectInt` returns error `e`.  `source`, `result`: that `Insert`
returns an error and stores nothing.  `update = some k` / `players = some k`: the
multi-row call returns an error after `k` of its rows were written. -/
structure Faults where
  count : Option Nat
  source : Bool
  result : Bool
  update : Option Nat
  players : Option Nat
  deriving DecidableEq, Repr

/-- No persistence call fails. -/
def Faults.none : Faults :=
  { count := Option.none, source := false, result := false, update := Option.none,
    players := Option.none }

/-- Append one action to the trace. -/
def World.emit (w : World) (e : Effect) : World :=
  { w with trace := w.trace ++ [e] }

/-- `clientCache.Get(id)`: the live session with that id, if any. -/
def World.cacheGet (w : World) (id : Int) : Option Client :=
  w.cache.find? (fun c => c.Id == id)

/-- The position in the cache of the session `clientCache.Get(id)` returns: the Go
pointer to that session. -/
def World.cachePtr (w : World) (id : Int) : Nat :=
  w.cache.findIdx (fun c => c.Id == id)

/-- A write through a pointer into the cache. -/
def World.cacheSet (w : World) (ptr : Nat) (c : Client) : World :=
  { w with cache := w.cache.set ptr c }

/-- `SELECT COUNT(*) FROM match_result_sources WHERE ReplayHash=?`. -/
def Db.countSources (db : Db) (hash : String) : Nat :=
  (db.sources.filter (fun s => s.ReplayHash == hash)).length

/-- A successful `dbMap.Insert(&source)`: the row receives a fresh `Id`. -/
def Db.insertSource (db : Db) (s : MatchResultSource) : Db :=
  { db with sources := db.sources ++ [{ s with Id := (db.sourceSeq : Int) + 1 }],
            sourceSeq := db.sourceSeq + 1 }

/-- A successful `dbMap.Insert(&res)`: returns the row with its fresh `Id`. -/
def Db.insertResult (db : Db) (r : MatchResult) : MatchResult × Db :=
  let r1 := { r with Id := (db.resultSeq : Int) + 1 }
  (r1, { db with results := db.results ++ [r1], resultSeq := db.resultSeq + 1 })

/-- A successful insert of one `MatchResultPlayer` row. -/
def Db.insertPlayer (db : Db) (p : MatchResultPlayer) : MatchResultPlayer × Db :=
  let p1 := { p with Id := (db.playerSeq : Int) + 1 }
  (p1, { db with players := db.players ++ [p1], playerSeq := db.playerSeq + 1 })

/-- `UPDATE` of one client row, matched on its primary key `Id`. -/
def Db.updateClient (db : Db) (c : Client) : Db :=
  { db with clients := db.clients.map (fun r => if r.Id == c.Id then c else r) }

/-- `dbMap.Update(a, b)`; `fault = some k` stops after `k` rows and reports failure. -/
def Db.updateClients (db : Db) (fault : Option Nat) (a b : Client) : Bool × Db :=
  match fault with
  | Option.none => (true, (db.updateClient a).updateClient b)
  | some 0 => (false, db)
  | some _ => (false, db.updateClient a)

/-- `dbMap.Insert(player, opponent)`; `fault = some k` stops after `k` rows.  Returns
the two rows as the caller sees them afterwards (an inserted row carries its `Id`). -/
def Db.insertPlayers (db : Db) (fault : Option Nat) (a b : MatchResultPlayer) :
    MatchResultPlayer × MatchResultPlayer × Db :=
  match fault with
  | Option.none =>
      let r1 := db.insertPlayer a
      let r2 := r1.2.insertPlayer b
      (r1.1, r2.1, r2.2)
  | some 0 => (a, b, db)
  | some _ =>
      let r1 := db.insertPlayer a
      (r1.1, b, r1.2)

/-! ## `Maps.Get` -/

/-- `Maps.Get`: the first map of the pool, in iteration order, with that region and
name. -/
def Maps.Get (m : List Map) (region : BattleNetRegion) (name : String) : Option Map :=
  match m with
  | [] => Option.none
  | x :: rest =>
      if x.Region ≠ region then Maps.Get rest region name
      else if x.BattleNetName = name then some x
      else Maps.Get rest region name

/-! ## `NewMatchResultPlayer` -/

/-- `NewMatchResultPlayer`: resolve one participant of the record. -/
def NewMatchResultPlayer (env : Env) (_replay : Replay) (player : ReplayPlayer) :
    Except LadderError MatchResultPlayer :=
  let parsed := env.ParseBattleNetProfileUrl player.Url
  match env.characterCacheGet parsed.1 parsed.2.1 parsed.2.2 with
  | Option.none => Except.error LadderError.ErrLadderPlayerNotFound
  | some character =>
      Except.ok
        { Id := 0, MatchId := 0, ClientId := character.ClientId,
          CharacterId := character.Id, PointsBefore := 0, PointsAfter := 0,
          PointsDifference := 0, Race := player.GameRace,
          Victory := player.Victory == "Win" }

/-! ## `NewMatchResult` -/

/-- What one call of `NewMatchResult` leaves behind: its three return values, the
world afterwards, and the submitting session (`*client`) afterwards. -/
structure Ret where
  result : Option MatchResult
  players : Option (List MatchResultPlayer)
  err : Option LadderError
  world : World
  client : Client
  deriving DecidableEq, Repr

/-- A bare `return` with `err` set and `result`, `players` still nil. -/
def Ret.fail (w : World) (client : Client) (e : LadderError) : Ret :=
  { result := Option.none, players := Option.none, err := some e, world := w,
    client := client }

/-- The `for x := range replay.Players` loop: `none` when a participant fails to
resolve (the loop returns `ErrLadderInvalidMatchParticipents`), otherwise the final
values of the locals `player` and `opponent`. -/
def assignRoles (env : Env) (replay : Replay) (clientId : Int) :
    List ReplayPlayer → Option MatchResultPlayer → Option MatchResultPlayer →
    Option (Option MatchResultPlayer × Option MatchResultPlayer)
  | [], player, opponent => some (player, opponent)
  | x :: xs, player, opponent =>
      match NewMatchResultPlayer env replay x with
      | Except.error _ => Option.none
      | Except.ok mrp =>
          if mrp.ClientId = clientId then assignRoles env replay clientId xs (some mrp) opponent
          else assignRoles env replay clientId xs player (some mrp)

/-- The body of `if player.Victory { ... }` (lines 317-381). -/
def settle (env : Env) (f : Faults) (w : World) (replay : Replay) (client : Client)
    (m : Map) (res : MatchResult) (player opponent : MatchResultPlayer) : Ret :=
  match w.cacheGet opponent.ClientId with
  | Option.none => Ret.fail w client LadderError.ErrLadderPlayerNotFound
  | some opponentClient =>
    let ptr := w.cachePtr opponent.ClientId
    if !env.IsMatchedWith client opponentClient then
      Ret.fail (w.emit (Effect.Forfeit client.Id)) (env.ForefeitMatchmadeMatch client)
        LadderError.ErrLadderWrongOpponent
    else
      let desync := !env.IsMatchedWith opponentClient client
      let oc1 := if desync then env.ForefeitMatchmadeMatch opponentClient else opponentClient
      let w1 := if desync then
          (w.cacheSet ptr oc1).emit (Effect.Forfeit opponentClient.Id)
        else w
      let source : MatchResultSource :=
        { Id := 0, MatchId := res.Id, ReplayHash := replay.Filehash }
      let w2 : World :=
        { w1 with db := if f.source then w1.db else w1.db.insertSource source,
                  trace := w1.trace ++ [Effect.InsertSource replay.Filehash] }
      if !env.IsOnMap client m.Id then
        Ret.fail w2 client LadderError.ErrLadderWrongMap
      else if f.result then
        Ret.fail (w2.emit Effect.InsertResult) client LadderError.ErrDbInsert
      else
        let ins := w2.db.insertResult res
        let res1 := ins.1
        let w3 : World := { w2 with db := ins.2, trace := w2.trace ++ [Effect.InsertResult] }
        let after := env.Defeat client oc1
        let pAfter := after.1.LadderPoints
        let oAfter := after.2.LadderPoints
        let player1 : MatchResultPlayer :=
          { player with MatchId := res1.Id, PointsBefore := client.LadderPoints,
                        PointsAfter := pAfter,
                        PointsDifference := wrapInt64 (pAfter - client.LadderPoints) }
        let opponent1 : MatchResultPlayer :=
          { opponent with MatchId := res1.Id, PointsBefore := oc1.LadderPoints,
                          PointsAfter := oAfter,
                          PointsDifference := wrapInt64 (pAfter - client.LadderPoints) }
        let client1 : Client :=
          { after.1 with PendingMatchmakingId := 0, PendingMatchmakingOpponentId := 0 }
        let oc2 : Client :=
          { after.2 with PendingMatchmakingId := 0, PendingMatchmakingOpponentId := 0 }
        let upd := w3.db.updateClients f.update client1 oc2
        let w4 : World :=
          { (w3.cacheSet ptr oc2) with
              db := upd.2,
              trace := w3.trace ++ [Effect.Defeat client.Id opponentClient.Id,
                Effect.ClearPending client.Id, Effect.ClearPending opponentClient.Id,
                Effect.UpdateClients client.Id opponentClient.Id] }
        if !upd.1 then
          Ret.fail w4 client1 LadderError.ErrDbInsert
        else
          let rows := w4.db.insertPlayers f.players player1 opponent1
          let w5 : World :=
            { w4 with db := rows.2.2,
                      trace := w4.trace ++ [Effect.InsertPlayers player.ClientId opponent.ClientId,
                        Effect.Broadcast client.Id, Effect.Broadcast opponentClient.Id] }
          { result := some res1, players := some [rows.1, rows.2.1], err := Option.none,
            world := w5, client := client1 }

/-- `NewMatchResult(replay, client)`. -/
def NewMatchResult (env : Env) (f : Faults) (w : World) (replay : Replay) (client : Client) :
    Ret :=
  let region := env.ParseBattleNetRegion replay.Region
  if replay.GameLength < 120 then
    Ret.fail w client LadderError.ErrLadderGameTooShort
  else
    match Maps.Get w.maps region replay.MapName with
    | Option.none => Ret.fail w client LadderError.ErrLadderInvalidMap
    | some m =>
      if !m.InRankedPool then
        Ret.fail w client LadderError.ErrLadderInvalidMap
      else if replay.Observers.length > 0 ∨ replay.Players.length ≠ 2 then
        Ret.fail w client LadderError.ErrLadderInvalidFormat
      else
        let w1 := w.emit (Effect.SelectCount replay.Filehash)
        let count := w.db.countSources replay.Filehash
        let err0 : Option LadderError := f.count.map LadderError.Persistence
        if err0 = Option.none ∧ count > 0 then
          Ret.fail w1 client LadderError.ErrLadderDuplicateReplay
        else
          match assignRoles env replay client.Id replay.Players Option.none Option.none with
          | Option.none => Ret.fail w1 client LadderError.ErrLadderInvalidMatchParticipents
          | some (Option.none, _) => Ret.fail w1 client LadderError.ErrLadderClientNotInvolved
          | some (some _, Option.none) =>
              Ret.fail w1 client LadderError.ErrLadderInvalidMatchParticipents
          | some (some player, some opponent) =>
            if player.Victory = opponent.Victory then
              Ret.fail w1 client LadderError.ErrLadderInvalidFormat
            else
              let w2 := (w1.emit (Effect.LockIds player.ClientId opponent.ClientId)).emit
                (Effect.UnlockIds player.ClientId opponent.ClientId)
              let res : MatchResult :=
                { Id := 0, MapId := m.Id, MatchmakerMatchId := client.PendingMatchmakingId,
                  DateTime := replay.UnixTimestamp }
              if player.Victory then
                settle env f w2 replay client m res player opponent
              else
                { result := Option.none, players := Option.none, err := err0, world := w2,
                  client := client }

/-! ## Lock window over a trace -/

/-- The actions that change a session or a persisted table. -/
def Effect.isMutation : Effect → Bool
  | Effect.Forfeit _ => true
  | Effect.InsertSource _ => true
  | Effect.InsertResult => true
  | Effect.Defeat _ _ => true
  | Effect.ClearPending _ => true
  | Effect.UpdateClients _ _ => true
  | Effect.InsertPlayers _ _ => true
  | _ => false

/-- Scan a trace from left to right, `held` telling whether the pairwise lock is
currently held: `true` iff every mutation happens while the lock is held. -/
def mutationsUnderLock : Bool → List Effect → Bool
  | _, [] => true
  | _, Effect.LockIds _ _ :: t => mutationsUnderLock true t
  | _, Effect.UnlockIds _ _ :: t => mutationsUnderLock false t
  | held, e :: t => (!e.isMutation || held) && mutationsUnderLock held t

/-! ## Sequences of submissions -/

/-- One submission: the record, the submitting session and the persistence faults
that occur while it is processed. -/
structure Call where
  faults : Faults
  replay : Replay
  client : Client

/-- The world after a sequence of submissions processed one after the other. -/
def runCalls (env : Env) (w : World) : List Call → World
  | [] => w
  | c :: cs => runCalls env (NewMatchResult env c.faults w c.replay c.client).world cs

/-! ## A concrete deployment used to evaluate the code -/

/-- Sample collaborators: region "NA" is 1; a profile url resolves by its length; a
session is matched with the session its pending-opponent field names; forfeiting
clears the pending fields; a win is worth 100 points and a loss costs 50. -/
def sampleEnv : Env :=
  { ParseBattleNetRegion := fun s => if s = "NA" then 1 else 2,
    ParseBattleNetProfileUrl := fun s => (1, 1, (s.length : Int)),
    characterCacheGet := fun _ _ id =>
      if id = 1 then some { Id := 11, ClientId := 1 }
      else if id = 2 then some { Id := 12, ClientId := 2 }
      else Option.none,
    IsMatchedWith := fun a b => a.PendingMatchmakingOpponentId == b.Id,
    IsOnMap := fun c mapId => (c.Other : Int) == mapId,
    ForefeitMatchmadeMatch := fun c =>
      { c with PendingMatchmakingId := 0, PendingMatchmakingOpponentId := 0 },
    Defeat := fun a b =>
      ({ a with LadderPoints := a.LadderPoints + 100 },
       { b with LadderPoints := b.LadderPoints - 50 }) }

/-- Session 1, matched (match 7, map 3) against session 2. -/
def alice : Client :=
  { Id := 1, LadderPoints := 1250, PendingMatchmakingId := 7,
    PendingMatchmakingOpponentId := 2, Other := 3 }

/-- Session 2, matched (match 7, map 3) against session 1. -/
def bob : Client :=
  { Id := 2, LadderPoints := 1250, PendingMatchmakingId := 7,
    PendingMatchmakingOpponentId := 1, Other := 3 }

/-- Session 2 with a pending match against somebody else (session 9). -/
def bobElsewhere : Client :=
  { Id := 2, LadderPoints := 1250, PendingMatchmakingId := 8,
    PendingMatchmakingOpponentId := 9, Other := 3 }

/-- Session 1 with a pending match against somebody else (session 9). -/
def aliceElsewhere : Client :=
  { Id := 1, LadderPoints := 1250, PendingMatchmakingId := 8,
    PendingMatchmakingOpponentId := 9, Other := 3 }

/-- An empty store. -/
def emptyDb : Db :=
  { sources := [], results := [], players := [], clients := [alice, bob],
    sourceSeq := 0, resultSeq := 0, playerSeq := 0 }

/-- One ranked map (id 3) in region 1; session 2 live in the cache. -/
def sampleWorld : World :=
  { maps := [{ Id := 3, Region := 1, BattleNetID := 0, BattleNetName := "Fighting Spirit",
               InRankedPool := true }],
    db := emptyDb, cache := [bob], trace := [] }

/-- The same world seen from session 2: session 1 live in the cache. -/
def sampleWorldBob : World :=
  { sampleWorld with cache := [alice] }

/-- The participant entry of session 1 (url of length 1), winner. -/
def aliceWins : ReplayPlayer := { Url := "a", GameRace := "Terran", Victory := "Win" }

/-- The participant entry of session 2 (url of length 2), loser. -/
def bobLoses : ReplayPlayer := { Url := "bb", GameRace := "Zerg", Victory := "Loss" }

/-- A 120-second 1v1 on the ranked map, won by session 1. -/
def sampleReplay : Replay :=
  { Region := "NA", MapName := "Fighting Spirit", GameLength := 120,
    Players := [aliceWins, bobLoses], Observers := [], Filehash := "h1",
    UnixTimestamp := 1400000000 }

/-- The sample record cut to 119 seconds. -/
def shortReplay : Replay := { sampleReplay with GameLength := 119 }

/-- A 119-second record with three participants. -/
def shortThreeWay : Replay :=
  { sampleReplay with GameLength := 119, Players := [aliceWins, bobLoses, bobLoses] }

/-- A 120-second record on the ranked map with three participants. -/
def threeWay : Replay :=
  { sampleReplay with Players := [aliceWins, bobLoses, bobLoses] }

/-- A second participant entry that also resolves to session 1 (url of length 1). -/
def aliceAgain : ReplayPlayer := { Url := "b", GameRace := "Zerg", Victory := "Loss" }

/-- A record whose two participants both resolve to session 1. -/
def mirrorReplay : Replay := { sampleReplay with Players := [aliceWins, aliceAgain] }

/-- A session that takes no part in the sample record. -/
def carol : Client :=
  { Id := 5, LadderPoints := 1250, PendingMatchmakingId := 0,
    PendingMatchmakingOpponentId := 0, Other := 3 }

/-- The ranked map of the sample world. -/
def sampleMap : Map :=
  { Id := 3, Region := 1, BattleNetID := 0, BattleNetName := "Fighting Spirit",
    InRankedPool := true }

/-- The row `NewMatchResultPlayer` builds for the entry `aliceWins`. -/
def aliceRow : MatchResultPlayer :=
  { Id := 0, MatchId := 0, ClientId := 1, CharacterId := 11, PointsBefore := 0,
    PointsAfter := 0, PointsDifference := 0, Race := "Terran", Victory := true }

/-- The row `NewMatchResultPlayer` builds for the entry `bobLoses`. -/
def bobRow : MatchResultPlayer :=
  { Id := 0, MatchId := 0, ClientId := 2, CharacterId := 12, PointsBefore := 0,
    PointsAfter := 0, PointsDifference := 0, Race := "Zerg", Victory := false }

/-- Only the insert of the source row fails. -/
def sourceInsertFails : Faults := { Faults.none with source := true }

/-- Only the duplicate-hash count query fails. -/
def countQueryFails : Faults := { Faults.none with count := some 1 }

/-- Only the insert of the two player rows fails, before any row is written. -/
def playersInsertFails : Faults := { Faults.none with players := some 0 }

/-! ## Division table -/

/-- The `Division` struct. -/
structure Division where
  Name : String
  Points : Int
  deriving DecidableEq, Repr

/-- How a piece of Go code ends: normally with a value, with a run-time panic, or (in
this model only) by exhausting the iteration budget given to its loops. -/
inductive Outcome (α : Type) where
  | done (a : α)
  | panicked
  | outOfFuel
  deriving DecidableEq, Repr

/-- The package variable `divisionNames`. -/
def divisionNames : List String := ["Bronze", "Silver", "Gold", "Platinum", "Diamond"]

/-- The indexing `divisionNames[i]` with an `int64` index: `none` is the
index-out-of-range panic. -/
def divisionNameAt (i : Int) : Option String :=
  if i < 0 then Option.none else divisionNames[i.toNat]?

/-- The inner loop of `initDivisions` (lines 93-104), started at `j` with the table
built so far in `acc`; `size` is `divisionSize`. -/
def initDivisionsInner (subdivisionCount divisionPoints size i : Int) :
    Nat → Int → List Division → Outcome (List Division)
  | 0, _, _ => Outcome.outOfFuel
  | fuel + 1, j, acc =>
      if j = subdivisionCount then Outcome.done acc
      else
        match divisionNameAt i with
        | Option.none => Outcome.panicked
        | some name =>
            initDivisionsInner subdivisionCount divisionPoints size i fuel (wrapInt64 (j + 1))
              (acc ++ [{ Points := wrapInt64 (wrapInt64 (size * i) + wrapInt64 (divisionPoints * j)),
                         Name := name ++ " " ++ toString (wrapInt64 (subdivisionCount - j)) }])

/-- The outer loop of `initDivisions` (lines 87-107), started at `i`; every inner loop
gets the iteration budget `budget`.  Returns the table and the final value of `i`. -/
def initDivisionsOuter (divisionCount subdivisionCount divisionPoints size : Int)
    (budget : Nat) : Nat → Int → List Division → Outcome (List Division × Int)
  | 0, _, _ => Outcome.outOfFuel
  | fuel + 1, i, acc =>
      if i = divisionCount then Outcome.done (acc, i)
      else
        match initDivisionsInner subdivisionCount divisionPoints size i budget 0 acc with
        | Outcome.done acc1 =>
            initDivisionsOuter divisionCount subdivisionCount divisionPoints size budget fuel
              (wrapInt64 (i + 1)) acc1
        | Outcome.panicked => Outcome.panicked
        | Outcome.outOfFuel => Outcome.outOfFuel

/-- `initDivisions()` from the capacity check of `make` on: a function of the three
configuration variables, returning the table stored in `divisions`.  A negative
capacity makes `make` panic; every loop may run `fuel` iterations.  The upper limit
`make` puts on the capacity is added by `initDivisionsWithin`. -/
def initDivisions (fuel : Nat) (divisionCount subdivisionCount divisionPoints : Int) :
    Outcome (List Division) :=
  if wrapInt64 (wrapInt64 (divisionCount * subdivisionCount) + 1) < 0 then Outcome.panicked
  else
    let divisionSize := wrapInt64 (divisionPoints * subdivisionCount)
    match initDivisionsOuter divisionCount subdivisionCount divisionPoints divisionSize fuel
        fuel 0 [] with
    | Outcome.done (acc, i) =>
        match divisionNameAt i with
        | Option.none => Outcome.panicked
        | some name => Outcome.done (acc ++ [{ Points := wrapInt64 (divisionSize * i), Name := name }])
    | Outcome.panicked => Outcome.panicked
    | Outcome.outOfFuel => Outcome.outOfFuel

/-- `initDivisions()` on a runtime where `limit` is the largest capacity for which
`make(Divisions, 0, cap)` succeeds (at most the allocation limit of the runtime
divided by the size of a `Division`): `make` on line 82 fails when the `int64`
capacity `divisionCount*subdivisionCount+1` is negative or exceeds `limit`. -/
def initDivisionsWithin (limit : Int) (fuel : Nat)
    (divisionCount subdivisionCount divisionPoints : Int) : Outcome (List Division) :=
  if limit < wrapInt64 (wrapInt64 (divisionCount * subdivisionCount) + 1) then
    Outcome.panicked
  else initDivisions fuel divisionCount subdivisionCount divisionPoints

/-- The capacity beyond which `make(Divisions, 0, cap)` panics where the allocation
limit of the runtime is `2^48` bytes and a `Division` (a string header and an `int64`)
takes 24 bytes, as on linux/amd64: `2^48 / 24`, rounded down. -/
def allocationLimit : Int := 11728124029610

/-- The loop of `GetDivision` (lines 119-129); the argument is the value of `i` before
the decrement `i--`.  Reading `d[-1]` (empty table) panics. -/
def GetDivisionScan (d : List Division) (points : Int) :
    Nat → Outcome (Option Division × Int)
  | 0 => Outcome.panicked
  | n + 1 =>
      match d[n]? with
      | Option.none => Outcome.panicked
      | some x =>
          if points ≥ x.Points then Outcome.done (some x, (n : Int))
          else if n = 0 then Outcome.done (Option.none, 0)
          else GetDivisionScan d points n

/-- `Divisions.GetDivision`: the division found (nil when none) and its position. -/
def GetDivision (d : List Division) (points : Int) : Outcome (Option Division × Int) :=
  GetDivisionScan d points d.length

/-- `Divisions.GetDifference`. -/
def GetDifference (d : List Division) (points points2 : Int) : Outcome Int :=
  match GetDivision d points with
  | Outcome.done (_, p1) =>
      match GetDivision d points2 with
      | Outcome.done (_, p2) => Outcome.done (wrapInt64 (p2 - p1))
      | Outcome.panicked => Outcome.panicked
      | Outcome.outOfFuel => Outcome.outOfFuel
  | Outcome.panicked => Outcome.panicked
  | Outcome.outOfFuel => Outcome.outOfFuel

/-- Entry `k` of the table as the specification describes it, for `k` below
`divisionCount * subdivisionCount`: it belongs to tier `k / subdivisionCount`, carries
the numeral `subdivisionCount - k % subdivisionCount` (counting down within the tier)
and the threshold `divisionPoints * k`, an `int64` value. -/
def specRow (subdivisionCount : Nat) (divisionPoints : Int) (k : Nat) : Division :=
  { Name := (divisionNames.getD (k / subdivisionCount) "") ++ " " ++
      toString ((subdivisionCount : Int) - ((k % subdivisionCount : Nat) : Int)),
    Points := wrapInt64 (divisionPoints * (k : Int)) }

/-- The table as the specification describes it: `divisionCount * subdivisionCount`
numbered entries followed by the bare name of tier `divisionCount` with threshold
`divisionPoints * subdivisionCount * divisionCount`. -/
def specDivisions (divisionCount subdivisionCount : Nat) (divisionPoints : Int) :
    List Division :=
  (List.range (divisionCount * subdivisionCount)).map (specRow subdivisionCount divisionPoints)
    ++ [{ Name := divisionNames.getD divisionCount "",
          Points := wrapInt64 (divisionPoints * (subdivisionCount : Int) * (divisionCount : Int)) }]

/-! ## `Maps.Random` -/

/-- The veto check of `Maps.Random` (lines 166-176): some non-nil entry of some veto
list has the `BattleNetID` and the `Region` of `x`. -/
def Maps.vetoed (x : Map) (veto : List (List (Option Map))) : Bool :=
  veto.any (fun l => l.any (fun e =>
    match e with
    | Option.none => false
    | some v => x.BattleNetID == v.BattleNetID && x.Region == v.Region))

/-- The slice `pool` built by the loop of `Maps.Random` (lines 157-179), the maps being
visited in the order of the list `m`. -/
def Maps.pool (m : List Map) (region : BattleNetRegion) (veto : List (List (Option Map))) :
    List Map :=
  match m with
  | [] => []
  | x :: rest =>
      if x.Region ≠ region ∨ !x.InRankedPool then Maps.pool rest region veto
      else if Maps.vetoed x veto then Maps.pool rest region veto
      else x :: Maps.pool rest region veto

/-- `Maps.Random`; `draw` is the raw random number from which `rand.Intn(len(pool))`
takes its value in `[0, len(pool))`. -/
def Maps.Random (m : List Map) (region : BattleNetRegion) (veto : List (List (Option Map)))
    (draw : Nat) : Option Map :=
  let pool := Maps.pool m region veto
  if pool.length = 0 then Option.none
  else pool[draw % pool.length]?

/-- The initial value of the package variable `maps` (lines 35-66), in key order; the
region codes `BATTLENET_REGION_EU` and `BATTLENET_REGION_NA` are declared outside
`ladder.go`.  No entry sets `BattleNetID`, so it is zero everywhere. -/
def maps (eu na : BattleNetRegion) : List Map :=
  [ { Id := 1, Region := eu, BattleNetID := 0, BattleNetName := "Starbow - Texas 3.0",
      InRankedPool := true },
    { Id := 2, Region := na, BattleNetID := 0, BattleNetName := "Frost LE",
      InRankedPool := false },
    { Id := 3, Region := na, BattleNetID := 0, BattleNetName := "Starbow - Fighting Spirit",
      InRankedPool := true },
    { Id := 4, Region := na, BattleNetID := 0, BattleNetName := "Starbow - Circuit breaker",
      InRankedPool := true },
    { Id := 5, Region := na, BattleNetID := 0, BattleNetName := "Starbow - Neo Tau Cross",
      InRankedPool := true } ]

/-- A one-entry table. -/
def bronzeOnly : List Division := [{ Name := "Bronze", Points := 0 }]

/-- The table built for two tiers of three subdivisions, 100 points each. -/
def sampleDivisions : List Division :=
  [{ Name := "Bronze 3", Points := 0 }, { Name := "Bronze 2", Points := 100 },
   { Name := "Bronze 1", Points := 200 }, { Name := "Silver 3", Points := 300 },
   { Name := "Silver 2", Points := 400 }, { Name := "Silver 1", Points := 500 },
   { Name := "Gold", Points := 600 }]

/-- An unsorted table. -/
def unsortedDivisions : List Division :=
  [{ Name := "A", Points := 300 }, { Name := "B", Points := 100 },
   { Name := "C", Points := 500 }, { Name := "D", Points := 200 }]

/-- The built-in pool with the region codes EU = 2 and NA = 1. -/
def builtinMaps : List Map := maps 2 1

/-- Map 3 of the built-in pool ("Starbow - Fighting Spirit", region NA). -/
def fightingSpirit : Map :=
  { Id := 3, Region := 1, BattleNetID := 0, BattleNetName := "Starbow - Fighting Spirit",
    InRankedPool := true }

/-- A pool of three ranked maps in region 1 with distinct `BattleNetID`s. -/
def distinctPool : List Map :=
  [ { Id := 3, Region := 1, BattleNetID := 30, BattleNetName := "Fighting Spirit",
      InRankedPool := true },
    { Id := 4, Region := 1, BattleNetID := 40, BattleNetName := "Circuit breaker",
      InRankedPool := true },
    { Id := 5, Region := 1, BattleNetID := 50, BattleNetName := "Neo Tau Cross",
      InRankedPool := true } ]

/-- Map 4 of `distinctPool`. -/
def circuitBreaker : Map :=
  { Id := 4, Region := 1, BattleNetID := 40, BattleNetName := "Circuit breaker",
    InRankedPool := true }

/-- Session 1, matched against session 2, but whose matchmaking designated map 4. -/
def aliceOffMap : Client := { alice with Other := 4 }

/-- The sample world in which session 2 has a pending match against session 9. -/
def desyncWorld : World := { sampleWorld with cache := [bobElsewhere] }

/-! ## Helper lemmas -/

theorem wrapInt64_of_inRange (x : Int) (h1 : -9223372036854775808 ≤ x)
    (h2 : x < 9223372036854775808) : wrapInt64 x = x := by
  unfold wrapInt64
  omega

/-- The roles after the loop over exactly two resolving participants. -/
theorem assignRoles_two (env : Env) (replay : Replay) (cid : Int) (a b : ReplayPlayer)
    (ra rb : MatchResultPlayer)
    (ha : NewMatchResultPlayer env replay a = Except.ok ra)
    (hb : NewMatchResultPlayer env replay b = Except.ok rb) :
    assignRoles env replay cid [a, b] Option.none Option.none =
      some (if rb.ClientId = cid then
              (some rb, if ra.ClientId = cid then Option.none else some ra)
            else
              (if ra.ClientId = cid then some ra else Option.none, some rb)) := by
  simp only [assignRoles, ha, hb]
  by_cases h1 : ra.ClientId = cid <;> by_cases h2 : rb.ClientId = cid <;> simp [h1, h2, assignRoles]

/-- Once every validation gate is passed, `NewMatchResult` is the lock/unlock pair
followed by the victor-only application. -/
theorem NewMatchResult_passed (env : Env) (f : Faults) (w : World) (replay : Replay)
    (client : Client) (m : Map) (player opponent : MatchResultPlayer)
    (hlen : 120 ≤ replay.GameLength)
    (hmap : Maps.Get w.maps (env.ParseBattleNetRegion replay.Region) replay.MapName = some m)
    (hranked : m.InRankedPool = true)
    (hobs : replay.Observers.length = 0) (hpl : replay.Players.length = 2)
    (hdup : ¬ (f.count = Option.none ∧ w.db.countSources replay.Filehash > 0))
    (hroles : assignRoles env replay client.Id replay.Players Option.none Option.none
      = some (some player, some opponent))
    (hvic : player.Victory ≠ opponent.Victory) :
    NewMatchResult env f w replay client =
      if player.Victory then
        settle env f
          (((w.emit (Effect.SelectCount replay.Filehash)).emit
            (Effect.LockIds player.ClientId opponent.ClientId)).emit
            (Effect.UnlockIds player.ClientId opponent.ClientId))
          replay client m
          { Id := 0, MapId := m.Id, MatchmakerMatchId := client.PendingMatchmakingId,
            DateTime := replay.UnixTimestamp }
          player opponent
      else
        { result := Option.none, players := Option.none,
          err := f.count.map LadderError.Persistence,
          world := ((w.emit (Effect.SelectCount replay.Filehash)).emit
            (Effect.LockIds player.ClientId opponent.ClientId)).emit
            (Effect.UnlockIds player.ClientId opponent.ClientId),
          client := client } := by
  have hlen2 : ¬ replay.GameLength < 120 := by omega
  have hdup2 : ¬ (Option.map LadderError.Persistence f.count = Option.none ∧
      w.db.countSources replay.Filehash > 0) := by
    simpa using hdup
  unfold NewMatchResult
  simp only [hlen2, hmap, hranked, hobs, hpl, hroles, hvic, hdup2, if_false]
  simp

/-- The victor-only application never reports a too-short game. -/
theorem settle_err_ne_tooShort (env : Env) (f : Faults) (w : World) (replay : Replay)
    (client : Client) (m : Map) (res : MatchResult) (player opponent : MatchResultPlayer) :
    (settle env f w replay client m res player opponent).err
      ≠ some LadderError.ErrLadderGameTooShort := by
  unfold settle
  split
  · simp [Ret.fail]
  · dsimp only
    split_ifs <;> simp [Ret.fail]

/-! ## Duration gate -/

/-- C7: a record with `GameLength < 120` is rejected with `ErrLadderGameTooShort`, nil
result and nil players, and leaves the world (store, session cache, trace) and the
submitting session exactly as they were, whatever the other fields are; a record with
`GameLength >= 120` never yields `ErrLadderGameTooShort`. -/
theorem duration_gate (env : Env) (f : Faults) (w : World) (replay : Replay)
    (client : Client) :
    (replay.GameLength < 120 →
      (NewMatchResult env f w replay client).err = some LadderError.ErrLadderGameTooShort ∧
      (NewMatchResult env f w replay client).result = Option.none ∧
      (NewMatchResult env f w replay client).players = Option.none ∧
      (NewMatchResult env f w replay client).world = w ∧
      (NewMatchResult env f w replay client).client = client) ∧
    (120 ≤ replay.GameLength →
      (NewMatchResult env f w replay client).err ≠ some LadderError.ErrLadderGameTooShort) := by
  constructor
  · intro h
    simp [NewMatchResult, h, Ret.fail]
  · intro h
    have h2 : ¬ replay.GameLength < 120 := by omega
    unfold NewMatchResult
    simp only [h2, if_false]
    split
    · simp [Ret.fail]
    · split_ifs
      · simp [Ret.fail]
      · simp [Ret.fail]
      · simp [Ret.fail]
      · split
        · simp [Ret.fail]
        · simp [Ret.fail]
        · simp [Ret.fail]
        · split_ifs
          · simp [Ret.fail]
          · exact settle_err_ne_tooShort _ _ _ _ _ _ _ _ _
          · cases f.count <;> simp

/-- Witness for C7: the 119-second sample record is rejected as too short without any
effect, and the 120-second sample record is not rejected as too short. -/
theorem duration_gate_witness :
    ((NewMatchResult sampleEnv Faults.none sampleWorld shortReplay alice).err
        = some LadderError.ErrLadderGameTooShort ∧
      (NewMatchResult sampleEnv Faults.none sampleWorld shortReplay alice).world
        = sampleWorld) ∧
    (NewMatchResult sampleEnv Faults.none sampleWorld sampleReplay alice).err
      ≠ some LadderError.ErrLadderGameTooShort :=
  ⟨⟨((duration_gate sampleEnv Faults.none sampleWorld shortReplay alice).1 (by decide)).1,
    ((duration_gate sampleEnv Faults.none sampleWorld shortReplay alice).1
      (by decide)).2.2.2.1⟩,
   (duration_gate sampleEnv Faults.none sampleWorld sampleReplay alice).2 (by decide)⟩

/-! ## Format gate -/

/-- C6, as stated, fails: a three-participant record that lasts 119 seconds is
rejected as too short, not as an invalid format. -/
theorem format_gate_not_first :
    (NewMatchResult sampleEnv Faults.none sampleWorld shortThreeWay alice).err
      ≠ some LadderError.ErrLadderInvalidFormat := by
  decide

/-- C6 (amended): a record that passes the duration gate and the map gate and has a
number of participants different from two, or at least one observer, is rejected with
`ErrLadderInvalidFormat`, nil result and nil players, without any effect, regardless
of its hash, its participants and every persistence fault. -/
theorem format_gate (env : Env) (f : Faults) (w : World) (replay : Replay)
    (client : Client) (m : Map)
    (hlen : 120 ≤ replay.GameLength)
    (hmap : Maps.Get w.maps (env.ParseBattleNetRegion replay.Region) replay.MapName = some m)
    (hranked : m.InRankedPool = true)
    (hfmt : replay.Players.length ≠ 2 ∨ 0 < replay.Observers.length) :
    (NewMatchResult env f w replay client).err = some LadderError.ErrLadderInvalidFormat ∧
    (NewMatchResult env f w replay client).result = Option.none ∧
    (NewMatchResult env f w replay client).players = Option.none ∧
    (NewMatchResult env f w replay client).world = w ∧
    (NewMatchResult env f w replay client).client = client := by
  have hlen2 : ¬ replay.GameLength < 120 := by omega
  have hfmt2 : replay.Observers.length > 0 ∨ replay.Players.length ≠ 2 := by
    rcases hfmt with h | h
    · exact Or.inr h
    · exact Or.inl h
  unfold NewMatchResult
  simp only [hlen2, hmap, hranked, hfmt2, if_false]
  simp [Ret.fail]

/-- Witness for C6 (amended): the 120-second three-participant record on the ranked
map. -/
theorem format_gate_witness :
    (NewMatchResult sampleEnv Faults.none sampleWorld threeWay alice).err
      = some LadderError.ErrLadderInvalidFormat :=
  (format_gate sampleEnv Faults.none sampleWorld threeWay alice
    { Id := 3, Region := 1, BattleNetID := 0, BattleNetName := "Fighting Spirit",
      InRankedPool := true }
    (by decide) (by decide) (by decide) (by decide)).1

/-- The possible errors of the victor-only application. -/
theorem settle_err_cases (env : Env) (f : Faults) (w : World) (replay : Replay)
    (client : Client) (m : Map) (res : MatchResult) (player opponent : MatchResultPlayer) :
    (settle env f w replay client m res player opponent).err = Option.none ∨
    (settle env f w replay client m res player opponent).err
      = some LadderError.ErrLadderPlayerNotFound ∨
    (settle env f w replay client m res player opponent).err
      = some LadderError.ErrLadderWrongOpponent ∨
    (settle env f w replay client m res player opponent).err
      = some LadderError.ErrLadderWrongMap ∨
    (settle env f w replay client m res player opponent).err
      = some LadderError.ErrDbInsert := by
  unfold settle
  split
  · simp [Ret.fail]
  · dsimp only
    split_ifs <;> simp [Ret.fail]

/-- After the four record gates and a successful resolution of both roles, a tie or a
double victory is rejected as an invalid format. -/
theorem NewMatchResult_tie (env : Env) (f : Faults) (w : World) (replay : Replay)
    (client : Client) (m : Map) (player opponent : MatchResultPlayer)
    (hlen : 120 ≤ replay.GameLength)
    (hmap : Maps.Get w.maps (env.ParseBattleNetRegion replay.Region) replay.MapName = some m)
    (hranked : m.InRankedPool = true)
    (hobs : replay.Observers.length = 0) (hpl : replay.Players.length = 2)
    (hdup : ¬ (f.count = Option.none ∧ w.db.countSources replay.Filehash > 0))
    (hroles : assignRoles env replay client.Id replay.Players Option.none Option.none
      = some (some player, some opponent))
    (hvic : player.Victory = opponent.Victory) :
    NewMatchResult env f w replay client =
      Ret.fail (w.emit (Effect.SelectCount replay.Filehash)) client
        LadderError.ErrLadderInvalidFormat := by
  have hlen2 : ¬ replay.GameLength < 120 := by omega
  have hdup2 : ¬ (Option.map LadderError.Persistence f.count = Option.none ∧
      w.db.countSources replay.Filehash > 0) := by
    simpa using hdup
  unfold NewMatchResult
  simp only [hlen2, hmap, hranked, hobs, hpl, hroles, hvic, hdup2, if_false]
  simp

/-- After the four record gates, when the loop leaves `player` nil the call is
rejected with `ErrLadderClientNotInvolved`; when it leaves `opponent` nil the call is
rejected with `ErrLadderInvalidMatchParticipents`. -/
theorem NewMatchResult_missing_role (env : Env) (f : Faults) (w : World) (replay : Replay)
    (client : Client) (m : Map)
    (hlen : 120 ≤ replay.GameLength)
    (hmap : Maps.Get w.maps (env.ParseBattleNetRegion replay.Region) replay.MapName = some m)
    (hranked : m.InRankedPool = true)
    (hobs : replay.Observers.length = 0) (hpl : replay.Players.length = 2)
    (hdup : ¬ (f.count = Option.none ∧ w.db.countSources replay.Filehash > 0)) :
    (∀ o, assignRoles env replay client.Id replay.Players Option.none Option.none
        = some (Option.none, o) →
      NewMatchResult env f w replay client =
        Ret.fail (w.emit (Effect.SelectCount replay.Filehash)) client
          LadderError.ErrLadderClientNotInvolved) ∧
    (∀ p, assignRoles env replay client.Id replay.Players Option.none Option.none
        = some (some p, Option.none) →
      NewMatchResult env f w replay client =
        Ret.fail (w.emit (Effect.SelectCount replay.Filehash)) client
          LadderError.ErrLadderInvalidMatchParticipents) := by
  have hlen2 : ¬ replay.GameLength < 120 := by omega
  have hdup2 : ¬ (Option.map LadderError.Persistence f.count = Option.none ∧
      w.db.countSources replay.Filehash > 0) := by
    simpa using hdup
  constructor
  · intro o hroles
    unfold NewMatchResult
    simp only [hlen2, hmap, hranked, hobs, hpl, hroles, hdup2, if_false]
    simp
  · intro p hroles
    unfold NewMatchResult
    simp only [hlen2, hmap, hranked, hobs, hpl, hroles, hdup2, if_false]
    simp

/-- Once both roles are resolved the call never reports `ErrLadderClientNotInvolved`. -/
theorem NewMatchResult_roles_involved (env : Env) (f : Faults) (w : World) (replay : Replay)
    (client : Client) (m : Map) (player opponent : MatchResultPlayer)
    (hlen : 120 ≤ replay.GameLength)
    (hmap : Maps.Get w.maps (env.ParseBattleNetRegion replay.Region) replay.MapName = some m)
    (hranked : m.InRankedPool = true)
    (hobs : replay.Observers.length = 0) (hpl : replay.Players.length = 2)
    (hdup : ¬ (f.count = Option.none ∧ w.db.countSources replay.Filehash > 0))
    (hroles : assignRoles env replay client.Id replay.Players Option.none Option.none
      = some (some player, some opponent)) :
    (NewMatchResult env f w replay client).err
      ≠ some LadderError.ErrLadderClientNotInvolved := by
  by_cases hvic : player.Victory = opponent.Victory
  · rw [NewMatchResult_tie env f w replay client m player opponent hlen hmap hranked hobs hpl
      hdup hroles hvic]
    simp [Ret.fail]
  · rw [NewMatchResult_passed env f w replay client m player opponent hlen hmap hranked hobs
      hpl hdup hroles hvic]
    split_ifs
    · rcases settle_err_cases env f
        (((w.emit (Effect.SelectCount replay.Filehash)).emit
          (Effect.LockIds player.ClientId opponent.ClientId)).emit
          (Effect.UnlockIds player.ClientId opponent.ClientId))
        replay client m
        { Id := 0, MapId := m.Id, MatchmakerMatchId := client.PendingMatchmakingId,
          DateTime := replay.UnixTimestamp } player opponent with h | h | h | h | h <;>
        simp [h]
    · cases f.count <;> simp

/-! ## Involvement check -/

/-- C8, as stated, fails: when both participants resolve to the submitting session the
call is rejected with `ErrLadderInvalidMatchParticipents`, not with
`ErrLadderClientNotInvolved`. -/
theorem involvement_both_not_clientNotInvolved :
    (NewMatchResult sampleEnv Faults.none sampleWorld mirrorReplay alice).err
        = some LadderError.ErrLadderInvalidMatchParticipents ∧
    (NewMatchResult sampleEnv Faults.none sampleWorld mirrorReplay alice).err
        ≠ some LadderError.ErrLadderClientNotInvolved := by
  decide

/-- C8 (amended): for a record that passes the duration, map, format and duplicate
gates and whose two participants `a`, `b` resolve to `ra`, `rb`: if neither has the
submitting session's id the call returns `ErrLadderClientNotInvolved`; if both have it
the call returns `ErrLadderInvalidMatchParticipents`; if exactly one has it, that one
becomes `player`, the other `opponent`, and `ErrLadderClientNotInvolved` is not
returned. -/
theorem involvement_check (env : Env) (f : Faults) (w : World) (replay : Replay)
    (client : Client) (m : Map) (a b : ReplayPlayer) (ra rb : MatchResultPlayer)
    (hlen : 120 ≤ replay.GameLength)
    (hmap : Maps.Get w.maps (env.ParseBattleNetRegion replay.Region) replay.MapName = some m)
    (hranked : m.InRankedPool = true)
    (hobs : replay.Observers.length = 0) (hpl : replay.Players = [a, b])
    (hdup : ¬ (f.count = Option.none ∧ w.db.countSources replay.Filehash > 0))
    (ha : NewMatchResultPlayer env replay a = Except.ok ra)
    (hb : NewMatchResultPlayer env replay b = Except.ok rb) :
    (ra.ClientId ≠ client.Id ∧ rb.ClientId ≠ client.Id →
      (NewMatchResult env f w replay client).err
        = some LadderError.ErrLadderClientNotInvolved) ∧
    (ra.ClientId = client.Id ∧ rb.ClientId = client.Id →
      (NewMatchResult env f w replay client).err
        = some LadderError.ErrLadderInvalidMatchParticipents) ∧
    (ra.ClientId = client.Id ∧ rb.ClientId ≠ client.Id →
      assignRoles env replay client.Id replay.Players Option.none Option.none
        = some (some ra, some rb) ∧
      (NewMatchResult env f w replay client).err
        ≠ some LadderError.ErrLadderClientNotInvolved) ∧
    (ra.ClientId ≠ client.Id ∧ rb.ClientId = client.Id →
      assignRoles env replay client.Id replay.Players Option.none Option.none
        = some (some rb, some ra) ∧
      (NewMatchResult env f w replay client).err
        ≠ some LadderError.ErrLadderClientNotInvolved) := by
  have hlen2 : replay.Players.length = 2 := by rw [hpl]; rfl
  have hr := assignRoles_two env replay client.Id a b ra rb ha hb
  rw [← hpl] at hr
  have hmiss := NewMatchResult_missing_role env f w replay client m hlen hmap hranked hobs
    hlen2 hdup
  refine ⟨?_, ?_, ?_, ?_⟩
  · rintro ⟨h1, h2⟩
    simp only [h1, h2, if_false] at hr
    rw [hmiss.1 _ hr]
    rfl
  · rintro ⟨h1, h2⟩
    simp only [h1, h2, if_true] at hr
    rw [hmiss.2 _ hr]
    rfl
  · rintro ⟨h1, h2⟩
    simp only [h1, h2, if_true, if_false] at hr
    exact ⟨hr, NewMatchResult_roles_involved env f w replay client m ra rb hlen hmap hranked
      hobs hlen2 hdup hr⟩
  · rintro ⟨h1, h2⟩
    simp only [h1, h2, if_true, if_false] at hr
    exact ⟨hr, NewMatchResult_roles_involved env f w replay client m rb ra hlen hmap hranked
      hobs hlen2 hdup hr⟩

/-- Witness for C8 (amended): in the sample record exactly the first participant is
the submitting session 1; it becomes the player and the other the opponent. -/
theorem involvement_check_witness :
    assignRoles sampleEnv sampleReplay alice.Id sampleReplay.Players Option.none Option.none
        = some (some aliceRow, some bobRow) ∧
    (NewMatchResult sampleEnv Faults.none sampleWorld sampleReplay alice).err
        ≠ some LadderError.ErrLadderClientNotInvolved :=
  (involvement_check sampleEnv Faults.none sampleWorld sampleReplay alice sampleMap
    aliceWins bobLoses aliceRow bobRow (by decide) (by decide) (by decide) (by decide)
    (by decide) (by decide) rfl rfl).2.2.1 ⟨by decide, by decide⟩

/-- The pointer `clientCache.Get` returns lies inside the cache. -/
theorem cachePtr_lt (w : World) (id : Int) (oc : Client)
    (h : w.cacheGet id = some oc) : w.cachePtr id < w.cache.length := by
  unfold World.cacheGet at h
  unfold World.cachePtr
  apply List.findIdx_lt_length_of_exists
  have hp := List.find?_some h
  exact ⟨oc, List.mem_of_find?_eq_some h, hp⟩

/-- Reading back a session just written through a valid pointer. -/
theorem cacheSet_read (w : World) (ptr : Nat) (c : Client) (h : ptr < w.cache.length) :
    (w.cacheSet ptr c).cache[ptr]? = some c := by
  simp [World.cacheSet, h]

/-! ## End-to-end settlement -/

/-- C1: a submission of at least 120 seconds on a ranked map of the record's region,
with exactly two participants `a`, `b` and no observer, a hash not yet among the
persisted sources, both participants resolving, exactly one of them (`player`) being
the submitting session and the sole victor, the opponent's session found in the
cache, the submitter matched with it and on that map, and no persistence fault,
returns a nil error, a result carrying the map's id, the record's timestamp and the
submitter's pending matchmaking id, and the two rows player, opponent; the victor's
row has `PointsDifference = PointsAfter - PointsBefore` (in `int64`); both sessions end
with cleared pending-matchmaking fields; exactly one result row, two player rows and
one source row with that hash are inserted. -/
theorem settlement_end_to_end (env : Env) (w : World) (replay : Replay) (client : Client)
    (m : Map) (a b : ReplayPlayer) (ra rb player opponent : MatchResultPlayer)
    (oc : Client)
    (hlen : 120 ≤ replay.GameLength)
    (hmap : Maps.Get w.maps (env.ParseBattleNetRegion replay.Region) replay.MapName = some m)
    (hranked : m.InRankedPool = true)
    (hpl : replay.Players = [a, b]) (hobs : replay.Observers = [])
    (hfresh : w.db.countSources replay.Filehash = 0)
    (ha : NewMatchResultPlayer env replay a = Except.ok ra)
    (hb : NewMatchResultPlayer env replay b = Except.ok rb)
    (hroles : (player = ra ∧ opponent = rb) ∨ (player = rb ∧ opponent = ra))
    (hsub : player.ClientId = client.Id) (hopp : opponent.ClientId ≠ client.Id)
    (hwin : player.Victory = true) (hlose : opponent.Victory = false)
    (hcache : w.cacheGet opponent.ClientId = some oc)
    (hmatched : env.IsMatchedWith client oc = true)
    (honmap : env.IsOnMap client m.Id = true) :
    (NewMatchResult env Faults.none w replay client).err = Option.none ∧
    ∃ res rowP rowO src ocAfter,
      (NewMatchResult env Faults.none w replay client).result = some res ∧
      res.MapId = m.Id ∧ res.DateTime = replay.UnixTimestamp ∧
      res.MatchmakerMatchId = client.PendingMatchmakingId ∧
      (NewMatchResult env Faults.none w replay client).players = some [rowP, rowO] ∧
      rowP.ClientId = client.Id ∧ rowP.CharacterId = player.CharacterId ∧
      rowP.Victory = true ∧
      rowO.ClientId = opponent.ClientId ∧ rowO.CharacterId = opponent.CharacterId ∧
      rowO.Victory = false ∧
      rowP.MatchId = res.Id ∧ rowO.MatchId = res.Id ∧
      rowP.PointsBefore = client.LadderPoints ∧
      rowP.PointsAfter = (NewMatchResult env Faults.none w replay client).client.LadderPoints ∧
      rowP.PointsDifference = wrapInt64 (rowP.PointsAfter - rowP.PointsBefore) ∧
      (NewMatchResult env Faults.none w replay client).client.PendingMatchmakingId = 0 ∧
      (NewMatchResult env Faults.none w replay client).client.PendingMatchmakingOpponentId
        = 0 ∧
      (NewMatchResult env Faults.none w replay client).world.cache[
        w.cachePtr opponent.ClientId]? = some ocAfter ∧
      ocAfter.PendingMatchmakingId = 0 ∧ ocAfter.PendingMatchmakingOpponentId = 0 ∧
      (NewMatchResult env Faults.none w replay client).world.db.results
        = w.db.results ++ [res] ∧
      (NewMatchResult env Faults.none w replay client).world.db.players
        = w.db.players ++ [rowP, rowO] ∧
      (NewMatchResult env Faults.none w replay client).world.db.sources
        = w.db.sources ++ [src] ∧
      src.ReplayHash = replay.Filehash ∧
      (NewMatchResult env Faults.none w replay client).world.db.countSources replay.Filehash
        = 1 := by
  have hlen2 : replay.Players.length = 2 := by rw [hpl]; rfl
  have hobs2 : replay.Observers.length = 0 := by rw [hobs]; rfl
  have hdup : ¬ (Faults.none.count = Option.none ∧ w.db.countSources replay.Filehash > 0) := by
    rw [hfresh]; simp
  have hr := assignRoles_two env replay client.Id a b ra rb ha hb
  rw [← hpl] at hr
  have hr2 : assignRoles env replay client.Id replay.Players Option.none Option.none
      = some (some player, some opponent) := by
    rcases hroles with ⟨h1, h2⟩ | ⟨h1, h2⟩
    · subst h1; subst h2
      simpa [hsub, hopp] using hr
    · subst h1; subst h2
      simpa [hsub, hopp] using hr
  have hvic : player.Victory ≠ opponent.Victory := by rw [hwin, hlose]; simp
  have hptr : w.cachePtr opponent.ClientId < w.cache.length := cachePtr_lt w _ oc hcache
  have hcount : (List.filter (fun s : MatchResultSource => s.ReplayHash == replay.Filehash)
      w.db.sources).length = 0 := hfresh
  rw [NewMatchResult_passed env Faults.none w replay client m player opponent hlen hmap
    hranked hobs2 hlen2 hdup hr2 hvic]
  simp only [hwin, if_true]
  unfold settle
  have hcache2 : (((w.emit (Effect.SelectCount replay.Filehash)).emit
      (Effect.LockIds player.ClientId opponent.ClientId)).emit
      (Effect.UnlockIds player.ClientId opponent.ClientId)).cacheGet opponent.ClientId
      = some oc := hcache
  simp only [hcache2, hmatched, honmap]
  have hptr2 : List.findIdx (fun c : Client => c.Id == opponent.ClientId) w.cache
      < w.cache.length := hptr
  by_cases hd : env.IsMatchedWith oc client = true
  · simp [hd, Faults.none, Db.updateClients, Db.insertPlayers, Db.insertPlayer,
      Db.insertResult, Db.insertSource, Db.updateClient, World.emit, World.cacheSet,
      World.cachePtr, Db.countSources, hsub, hlose, hwin, List.filter_append, hcount, hptr2]
    refine ⟨_, _, ⟨rfl, rfl⟩, ?_⟩
    simp
  · simp [hd, Faults.none, Db.updateClients, Db.insertPlayers, Db.insertPlayer,
      Db.insertResult, Db.insertSource, Db.updateClient, World.emit, World.cacheSet,
      World.cachePtr, Db.countSources, hsub, hlose, hwin, List.filter_append, hcount, hptr2]
    refine ⟨_, _, ⟨rfl, rfl⟩, ?_⟩
    simp

/-- Witness for C1: session 1 submits the sample record it won against session 2. -/
theorem settlement_end_to_end_witness :
    (NewMatchResult sampleEnv Faults.none sampleWorld sampleReplay alice).err = Option.none :=
  (settlement_end_to_end sampleEnv sampleWorld sampleReplay alice sampleMap aliceWins
    bobLoses aliceRow bobRow aliceRow bobRow bob (by decide) (by decide) (by decide)
    (by decide) (by decide) (by decide) rfl rfl (Or.inl ⟨rfl, rfl⟩) (by decide) (by decide)
    (by decide) (by decide) (by decide) (by decide) (by decide)).1

/-! ## Per-player point deltas -/

/-- C2 (the code diverges): in the settled sample submission the winner goes from 1250
to 1350 points and the loser from 1250 to 1200, yet both returned rows carry
`PointsDifference = 100`: the opponent's row holds the victor's delta, not
`1200 - 1250 = -50`. -/
theorem opponent_delta_is_victors :
    (NewMatchResult sampleEnv Faults.none sampleWorld sampleReplay alice).players.map
        (fun rows => rows.map
          (fun r => (r.ClientId, r.PointsBefore, r.PointsAfter, r.PointsDifference)))
      = some [(1, 1250, 1350, 100), (2, 1250, 1200, 100)] := by
  decide

/-! ## Persistence errors -/

/-- C9 (the code diverges): when the insert of the source row fails, or the count
query fails, or the insert of the two player rows fails, and nothing else goes wrong,
the sample submission still returns a nil error and a non-nil result. -/
theorem ignored_persistence_errors :
    ((NewMatchResult sampleEnv sourceInsertFails sampleWorld sampleReplay alice).err
        = Option.none ∧
      (NewMatchResult sampleEnv sourceInsertFails sampleWorld sampleReplay alice).result
        = some { Id := 1, MapId := 3, MatchmakerMatchId := 7, DateTime := 1400000000 } ∧
      (NewMatchResult sampleEnv sourceInsertFails sampleWorld sampleReplay alice).world.db.sources
        = []) ∧
    ((NewMatchResult sampleEnv countQueryFails sampleWorld sampleReplay alice).err
        = Option.none ∧
      (NewMatchResult sampleEnv countQueryFails sampleWorld sampleReplay alice).result
        = some { Id := 1, MapId := 3, MatchmakerMatchId := 7, DateTime := 1400000000 }) ∧
    ((NewMatchResult sampleEnv playersInsertFails sampleWorld sampleReplay alice).err
        = Option.none ∧
      (NewMatchResult sampleEnv playersInsertFails sampleWorld sampleReplay alice).result
        = some { Id := 1, MapId := 3, MatchmakerMatchId := 7, DateTime := 1400000000 } ∧
      (NewMatchResult sampleEnv playersInsertFails sampleWorld sampleReplay alice).world.db.players
        = []) := by
  decide

/-! ## Lock window -/

/-- C10 (the code diverges): in the settled sample submission the pairwise lock is
released immediately after it is taken, and every mutation (insert of the source row,
insert of the result, defeat, clearing of the pending fields, update of the sessions,
insert of the player rows) happens after the release. -/
theorem mutations_after_unlock :
    (NewMatchResult sampleEnv Faults.none sampleWorld sampleReplay alice).world.trace
      = [Effect.SelectCount "h1", Effect.LockIds 1 2, Effect.UnlockIds 1 2,
         Effect.InsertSource "h1", Effect.InsertResult, Effect.Defeat 1 2,
         Effect.ClearPending 1, Effect.ClearPending 2, Effect.UpdateClients 1 2,
         Effect.InsertPlayers 1 2, Effect.Broadcast 1, Effect.Broadcast 2] ∧
    mutationsUnderLock false
      (NewMatchResult sampleEnv Faults.none sampleWorld sampleReplay alice).world.trace
      = false := by
  decide

/-! ## Roles assigned by the participant loop -/

/-- The loop only ever stores a row of the submitting session in `player` and a row of
another session in `opponent`. -/
theorem assignRoles_ids (env : Env) (replay : Replay) (cid : Int) :
    ∀ (ps : List ReplayPlayer) (p0 o0 : Option MatchResultPlayer)
      (p o : Option MatchResultPlayer),
      (∀ x, p0 = some x → x.ClientId = cid) →
      (∀ x, o0 = some x → x.ClientId ≠ cid) →
      assignRoles env replay cid ps p0 o0 = some (p, o) →
      (∀ x, p = some x → x.ClientId = cid) ∧ (∀ x, o = some x → x.ClientId ≠ cid) := by
  intro ps
  induction ps with
  | nil =>
    intro p0 o0 p o hp ho h
    simp only [assignRoles, Option.some.injEq, Prod.mk.injEq] at h
    obtain ⟨h1, h2⟩ := h
    subst h1; subst h2
    exact ⟨hp, ho⟩
  | cons x xs ih =>
    intro p0 o0 p o hp ho h
    simp only [assignRoles] at h
    cases hx : NewMatchResultPlayer env replay x with
    | error e => simp [hx] at h
    | ok mrp =>
      simp only [hx] at h
      by_cases hc : mrp.ClientId = cid
      · simp only [hc, if_true] at h
        refine ih (some mrp) o0 p o ?_ ho h
        intro y hy
        cases hy
        exact hc
      · simp only [hc, if_false] at h
        refine ih p0 (some mrp) p o hp ?_ h
        intro y hy
        cases hy
        exact hc

/-! ## Wrong opponent -/

/-- C5: for a victor-submitted record that passes every earlier gate and whose
opponent session is found, if the submitter is not matched with that session the call
returns `ErrLadderWrongOpponent` with nil result and nil players; the only thing it
does to any session is `ForefeitMatchmadeMatch` on the submitter (the trace gains one
forfeit, of the submitter, none of the opponent, and no defeat); the store and the
cached sessions are untouched.  Hence, forfeiting being what clears the pending-match
fields, the submitter ends with both cleared, and as forfeiting leaves the ladder
points alone no ladder points change. -/
theorem wrong_opponent (env : Env) (f : Faults) (w : World) (replay : Replay)
    (client : Client) (m : Map) (player opponent : MatchResultPlayer) (oc : Client)
    (hlen : 120 ≤ replay.GameLength)
    (hmap : Maps.Get w.maps (env.ParseBattleNetRegion replay.Region) replay.MapName = some m)
    (hranked : m.InRankedPool = true)
    (hobs : replay.Observers.length = 0) (hpl : replay.Players.length = 2)
    (hdup : ¬ (f.count = Option.none ∧ w.db.countSources replay.Filehash > 0))
    (hroles : assignRoles env replay client.Id replay.Players Option.none Option.none
      = some (some player, some opponent))
    (hwin : player.Victory = true) (hlose : opponent.Victory = false)
    (hcache : w.cacheGet opponent.ClientId = some oc)
    (hnot : env.IsMatchedWith client oc = false) :
    (NewMatchResult env f w replay client).err = some LadderError.ErrLadderWrongOpponent ∧
    (NewMatchResult env f w replay client).result = Option.none ∧
    (NewMatchResult env f w replay client).players = Option.none ∧
    (NewMatchResult env f w replay client).client = env.ForefeitMatchmadeMatch client ∧
    (NewMatchResult env f w replay client).world.db = w.db ∧
    (NewMatchResult env f w replay client).world.cache = w.cache ∧
    (NewMatchResult env f w replay client).world.trace
      = w.trace ++ [Effect.SelectCount replay.Filehash,
          Effect.LockIds player.ClientId opponent.ClientId,
          Effect.UnlockIds player.ClientId opponent.ClientId,
          Effect.Forfeit client.Id] ∧
    Effect.Forfeit client.Id ≠ Effect.Forfeit opponent.ClientId ∧
    ((∀ c, (env.ForefeitMatchmadeMatch c).PendingMatchmakingId = 0 ∧
          (env.ForefeitMatchmadeMatch c).PendingMatchmakingOpponentId = 0) →
      (NewMatchResult env f w replay client).client.PendingMatchmakingId = 0 ∧
      (NewMatchResult env f w replay client).client.PendingMatchmakingOpponentId = 0) ∧
    ((∀ c, (env.ForefeitMatchmadeMatch c).LadderPoints = c.LadderPoints) →
      (NewMatchResult env f w replay client).client.LadderPoints = client.LadderPoints) := by
  have hvic : player.Victory ≠ opponent.Victory := by rw [hwin, hlose]; simp
  have hids := assignRoles_ids env replay client.Id replay.Players Option.none Option.none
    (some player) (some opponent) (by simp) (by simp) hroles
  have hne : opponent.ClientId ≠ client.Id := hids.2 opponent rfl
  have hcache2 : (((w.emit (Effect.SelectCount replay.Filehash)).emit
      (Effect.LockIds player.ClientId opponent.ClientId)).emit
      (Effect.UnlockIds player.ClientId opponent.ClientId)).cacheGet opponent.ClientId
      = some oc := hcache
  rw [NewMatchResult_passed env f w replay client m player opponent hlen hmap hranked hobs
    hpl hdup hroles hvic]
  simp only [hwin, if_true]
  unfold settle
  simp only [hcache2, hnot]
  refine ⟨rfl, rfl, rfl, rfl, rfl, rfl, ?_, ?_, ?_, ?_⟩
  · simp [Ret.fail, World.emit]
  · intro h
    injection h with h
    exact hne h.symm
  · intro h
    exact h client
  · intro h
    exact h client

/-- Witness for C5: session 1, whose pending match is against session 9, submits the
sample record it won against session 2. -/
theorem wrong_opponent_witness :
    (NewMatchResult sampleEnv Faults.none sampleWorld sampleReplay aliceElsewhere).err
        = some LadderError.ErrLadderWrongOpponent ∧
    (NewMatchResult sampleEnv Faults.none sampleWorld sampleReplay
        aliceElsewhere).client.PendingMatchmakingId = 0 ∧
    (NewMatchResult sampleEnv Faults.none sampleWorld sampleReplay
        aliceElsewhere).client.PendingMatchmakingOpponentId = 0 ∧
    (NewMatchResult sampleEnv Faults.none sampleWorld sampleReplay
        aliceElsewhere).client.LadderPoints = aliceElsewhere.LadderPoints :=
  have h := wrong_opponent sampleEnv Faults.none sampleWorld sampleReplay aliceElsewhere
    sampleMap aliceRow bobRow bob (by decide) (by decide) (by decide) (by decide)
    (by decide) (by decide) rfl (by decide) (by decide) (by decide) (by decide)
  ⟨h.1, (h.2.2.2.2.2.2.2.2.1 (fun _ => ⟨rfl, rfl⟩)).1,
    (h.2.2.2.2.2.2.2.2.1 (fun _ => ⟨rfl, rfl⟩)).2, h.2.2.2.2.2.2.2.2.2 (fun _ => rfl)⟩

/-! ## Loser submission -/

/-- C4, as stated, fails: session 2 submits the sample record it lost while the
count query fails; every listed gate is passed, and the call returns the error of the
count query instead of a nil error (still with nil result and nil players). -/
theorem loser_submission_query_error :
    (NewMatchResult sampleEnv countQueryFails sampleWorldBob sampleReplay bob).err
        = some (LadderError.Persistence 1) ∧
    (NewMatchResult sampleEnv countQueryFails sampleWorldBob sampleReplay bob).result
        = Option.none ∧
    (NewMatchResult sampleEnv countQueryFails sampleWorldBob sampleReplay bob).players
        = Option.none := by
  decide

/-- C4 (amended): for a submission whose count query succeeds, that passes the
duration, map, format, duplicate, participant-resolution, involvement and
victory-exclusivity gates and in which the submitting session's participant is not the
victor, the call returns nil result, nil players and nil error, leaves the store, the
cached sessions and the submitting session unchanged, and its only actions are the
count query and the lock/unlock pair (no forfeit, no insert, no update). -/
theorem loser_submission (env : Env) (f : Faults) (w : World) (replay : Replay)
    (client : Client) (m : Map) (player opponent : MatchResultPlayer)
    (hlen : 120 ≤ replay.GameLength)
    (hmap : Maps.Get w.maps (env.ParseBattleNetRegion replay.Region) replay.MapName = some m)
    (hranked : m.InRankedPool = true)
    (hobs : replay.Observers.length = 0) (hpl : replay.Players.length = 2)
    (hquery : f.count = Option.none)
    (hfresh : w.db.countSources replay.Filehash = 0)
    (hroles : assignRoles env replay client.Id replay.Players Option.none Option.none
      = some (some player, some opponent))
    (hlose : player.Victory = false) (hwin : opponent.Victory = true) :
    (NewMatchResult env f w replay client).result = Option.none ∧
    (NewMatchResult env f w replay client).players = Option.none ∧
    (NewMatchResult env f w replay client).err = Option.none ∧
    (NewMatchResult env f w replay client).world.db = w.db ∧
    (NewMatchResult env f w replay client).world.cache = w.cache ∧
    (NewMatchResult env f w replay client).client = client ∧
    (NewMatchResult env f w replay client).world.trace
      = w.trace ++ [Effect.SelectCount replay.Filehash,
          Effect.LockIds player.ClientId opponent.ClientId,
          Effect.UnlockIds player.ClientId opponent.ClientId] := by
  have hvic : player.Victory ≠ opponent.Victory := by rw [hwin, hlose]; simp
  have hdup : ¬ (f.count = Option.none ∧ w.db.countSources replay.Filehash > 0) := by
    rw [hfresh]; simp
  rw [NewMatchResult_passed env f w replay client m player opponent hlen hmap hranked hobs
    hpl hdup hroles hvic]
  simp [hlose, hquery, World.emit]

/-- Witness for C4 (amended): session 2 submits the sample record it lost. -/
theorem loser_submission_witness :
    (NewMatchResult sampleEnv Faults.none sampleWorldBob sampleReplay bob).err
        = Option.none ∧
    (NewMatchResult sampleEnv Faults.none sampleWorldBob sampleReplay bob).world.db
        = sampleWorldBob.db :=
  have h := loser_submission sampleEnv Faults.none sampleWorldBob sampleReplay bob
    sampleMap bobRow aliceRow (by decide) (by decide) (by decide) (by decide)
    (by decide) (by decide) (by decide) rfl (by decide) (by decide)
  ⟨h.2.2.1, h.2.2.2.1⟩

/-! ## Source rows only accumulate -/

theorem updateClients_sources (db : Db) (fault : Option Nat) (a b : Client) :
    (db.updateClients fault a b).2.sources = db.sources := by
  unfold Db.updateClients
  split <;> rfl

theorem insertPlayers_sources (db : Db) (fault : Option Nat) (a b : MatchResultPlayer) :
    (db.insertPlayers fault a b).2.2.sources = db.sources := by
  unfold Db.insertPlayers
  split <;> rfl

/-- What the victor-only application does to the source table: nothing, or one new
row carrying the record's hash. -/
theorem settle_sources (env : Env) (f : Faults) (w : World) (replay : Replay)
    (client : Client) (m : Map) (res : MatchResult) (player opponent : MatchResultPlayer) :
    ((settle env f w replay client m res player opponent).world.db.sources = w.db.sources ∨
      ∃ s, s.ReplayHash = replay.Filehash ∧
        (settle env f w replay client m res player opponent).world.db.sources
          = w.db.sources ++ [s]) ∧
    ((settle env f w replay client m res player opponent).result ≠ Option.none →
      f.source = false →
      ∃ s, s.ReplayHash = replay.Filehash ∧
        (settle env f w replay client m res player opponent).world.db.sources
          = w.db.sources ++ [s]) := by
  unfold settle
  split
  · simp [Ret.fail]
  · dsimp only
    split_ifs <;>
      simp [Ret.fail, World.emit, World.cacheSet, updateClients_sources,
        insertPlayers_sources, Db.insertResult, Db.insertSource, *]

/-- What one call does to the source table: nothing, or one new row carrying the
record's hash; the latter whenever the call settles and its source insert succeeds. -/
theorem NewMatchResult_sources (env : Env) (f : Faults) (w : World) (replay : Replay)
    (client : Client) :
    ((NewMatchResult env f w replay client).world.db.sources = w.db.sources ∨
      ∃ s, s.ReplayHash = replay.Filehash ∧
        (NewMatchResult env f w replay client).world.db.sources = w.db.sources ++ [s]) ∧
    ((NewMatchResult env f w replay client).result ≠ Option.none →
      f.source = false →
      ∃ s, s.ReplayHash = replay.Filehash ∧
        (NewMatchResult env f w replay client).world.db.sources = w.db.sources ++ [s]) := by
  unfold NewMatchResult
  dsimp only
  repeat' split
  all_goals first
    | exact settle_sources env f _ replay client _ _ _ _
    | simp [Ret.fail, World.emit]

/-- The number of source rows with a given hash never decreases over one call. -/
theorem NewMatchResult_count_mono (env : Env) (f : Faults) (w : World) (replay : Replay)
    (client : Client) (hash : String) :
    w.db.countSources hash
      ≤ (NewMatchResult env f w replay client).world.db.countSources hash := by
  rcases (NewMatchResult_sources env f w replay client).1 with h | ⟨s, _, h⟩
  · simp [Db.countSources, h]
  · simp [Db.countSources, h, List.filter_append]

/-- The number of source rows with a given hash never decreases over a sequence of
calls. -/
theorem runCalls_count_mono (env : Env) (hash : String) :
    ∀ (calls : List Call) (w : World),
      w.db.countSources hash ≤ (runCalls env w calls).db.countSources hash := by
  intro calls
  induction calls with
  | nil => intro w; exact Nat.le_refl _
  | cons c cs ih =>
    intro w
    exact Nat.le_trans (NewMatchResult_count_mono env c.faults w c.replay c.client hash)
      (ih _)

/-- A settled call whose source insert succeeded leaves a source row with its hash. -/
theorem settled_leaves_source (env : Env) (f : Faults) (w : World) (replay : Replay)
    (client : Client)
    (hres : (NewMatchResult env f w replay client).result ≠ Option.none)
    (hsrc : f.source = false) :
    0 < (NewMatchResult env f w replay client).world.db.countSources replay.Filehash := by
  obtain ⟨s, hs, h⟩ := (NewMatchResult_sources env f w replay client).2 hres hsrc
  simp [Db.countSources, h, List.filter_append, hs]

/-- The duplicate gate: a record that passes the duration, map and format gates, whose
count query succeeds and whose hash is already among the persisted sources, is
rejected right after the query. -/
theorem NewMatchResult_duplicate (env : Env) (f : Faults) (w : World) (replay : Replay)
    (client : Client) (m : Map)
    (hlen : 120 ≤ replay.GameLength)
    (hmap : Maps.Get w.maps (env.ParseBattleNetRegion replay.Region) replay.MapName = some m)
    (hranked : m.InRankedPool = true)
    (hobs : replay.Observers.length = 0) (hpl : replay.Players.length = 2)
    (hquery : f.count = Option.none)
    (hcount : 0 < w.db.countSources replay.Filehash) :
    NewMatchResult env f w replay client =
      Ret.fail (w.emit (Effect.SelectCount replay.Filehash)) client
        LadderError.ErrLadderDuplicateReplay := by
  have hlen2 : ¬ replay.GameLength < 120 := by omega
  have hdup : Option.map LadderError.Persistence f.count = Option.none ∧
      w.db.countSources replay.Filehash > 0 := by
    rw [hquery]; exact ⟨rfl, hcount⟩
  unfold NewMatchResult
  simp only [hlen2, hmap, hranked, hobs, hpl, hdup, if_false]
  simp

/-! ## Duplicate rejection -/

/-- C3: if a call with a record settles (non-nil result) and its source insert
succeeds, then after any sequence of further calls, a call with a record of the same
`Filehash` that passes the duration, map and format gates and whose count query
succeeds returns `ErrLadderDuplicateReplay` with nil result and nil players, leaves
the store and the cached sessions unchanged and the submitting session unchanged. -/
theorem duplicate_rejected (env : Env) (f1 : Faults) (w : World) (replay1 : Replay)
    (client1 : Client) (calls : List Call) (f2 : Faults) (replay2 : Replay)
    (client2 : Client) (m : Map)
    (hres : (NewMatchResult env f1 w replay1 client1).result ≠ Option.none)
    (hsrc : f1.source = false)
    (hhash : replay2.Filehash = replay1.Filehash)
    (hlen : 120 ≤ replay2.GameLength)
    (hmap : Maps.Get (runCalls env (NewMatchResult env f1 w replay1 client1).world calls).maps
      (env.ParseBattleNetRegion replay2.Region) replay2.MapName = some m)
    (hranked : m.InRankedPool = true)
    (hobs : replay2.Observers.length = 0) (hpl : replay2.Players.length = 2)
    (hquery : f2.count = Option.none) :
    (NewMatchResult env f2
      (runCalls env (NewMatchResult env f1 w replay1 client1).world calls)
      replay2 client2).err = some LadderError.ErrLadderDuplicateReplay ∧
    (NewMatchResult env f2
      (runCalls env (NewMatchResult env f1 w replay1 client1).world calls)
      replay2 client2).result = Option.none ∧
    (NewMatchResult env f2
      (runCalls env (NewMatchResult env f1 w replay1 client1).world calls)
      replay2 client2).players = Option.none ∧
    (NewMatchResult env f2
      (runCalls env (NewMatchResult env f1 w replay1 client1).world calls)
      replay2 client2).world.db
      = (runCalls env (NewMatchResult env f1 w replay1 client1).world calls).db ∧
    (NewMatchResult env f2
      (runCalls env (NewMatchResult env f1 w replay1 client1).world calls)
      replay2 client2).world.cache
      = (runCalls env (NewMatchResult env f1 w replay1 client1).world calls).cache ∧
    (NewMatchResult env f2
      (runCalls env (NewMatchResult env f1 w replay1 client1).world calls)
      replay2 client2).client = client2 := by
  have h1 := settled_leaves_source env f1 w replay1 client1 hres hsrc
  have h2 := runCalls_count_mono env replay1.Filehash calls
    (NewMatchResult env f1 w replay1 client1).world
  have hcount : (runCalls env (NewMatchResult env f1 w replay1 client1).world
      calls).db.countSources replay2.Filehash > 0 := by
    rw [hhash]; omega
  rw [NewMatchResult_duplicate env f2 _ replay2 client2 m hlen hmap hranked hobs hpl hquery
    hcount]
  simp [Ret.fail, World.emit]

/-- Witness for C3: session 1 settles the sample record; session 2 then submits the
same record (a loser submission that changes nothing); session 1 submitting it again
is rejected as a duplicate. -/
theorem duplicate_rejected_witness :
    (NewMatchResult sampleEnv Faults.none
      (runCalls sampleEnv
        (NewMatchResult sampleEnv Faults.none sampleWorld sampleReplay alice).world
        [{ faults := countQueryFails, replay := sampleReplay, client := bob }])
      sampleReplay alice).err = some LadderError.ErrLadderDuplicateReplay :=
  (duplicate_rejected sampleEnv Faults.none sampleWorld sampleReplay alice
    [{ faults := countQueryFails, replay := sampleReplay, client := bob }]
    Faults.none sampleReplay alice sampleMap (by decide) (by decide) rfl (by decide)
    (by decide) (by decide) (by decide) (by decide) (by decide)).1

/-! ## `int64` arithmetic -/

theorem wrapInt64_emod (x : Int) :
    wrapInt64 x % 18446744073709551616 = x % 18446744073709551616 := by
  unfold wrapInt64
  omega

theorem wrapInt64_congr (x y : Int)
    (h : x % 18446744073709551616 = y % 18446744073709551616) :
    wrapInt64 x = wrapInt64 y := by
  unfold wrapInt64
  omega

theorem wrapInt64_add (a b : Int) :
    wrapInt64 (wrapInt64 a + wrapInt64 b) = wrapInt64 (a + b) := by
  unfold wrapInt64
  omega

theorem wrapInt64_mul_left (a b : Int) : wrapInt64 (wrapInt64 a * b) = wrapInt64 (a * b) := by
  apply wrapInt64_congr
  rw [Int.mul_emod, wrapInt64_emod, ← Int.mul_emod]

/-- The threshold computed on line 99 is the `int64` value of
`divisionPoints * (i * subdivisionCount + j)`. -/
theorem threshold_eq (dp sc i j : Int) :
    wrapInt64 (wrapInt64 (wrapInt64 (dp * sc) * i) + wrapInt64 (dp * j))
      = wrapInt64 (dp * (i * sc + j)) := by
  rw [wrapInt64_mul_left, wrapInt64_add]
  congr 1
  ring

/-! ## `initDivisions` builds the specified table -/

theorem divisionNameAt_nat (n : Nat) (h : n < 5) :
    divisionNameAt (n : Int) = some (divisionNames.getD n "") := by
  interval_cases n <;> decide

/-- The row appended by the inner loop at `(i, j)` is entry `i * S + j` of the
specified table. -/
theorem inner_row_eq (S : Nat) (dp : Int) (i j : Nat) (hj : j < S)
    (hS : (S : Int) < 9223372036854775808) :
    ({ Points := wrapInt64 (wrapInt64 (wrapInt64 (dp * (S : Int)) * (i : Int))
          + wrapInt64 (dp * (j : Int))),
       Name := (divisionNames.getD i "") ++ " " ++
          toString (wrapInt64 ((S : Int) - (j : Int))) } : Division)
      = specRow S dp (i * S + j) := by
  have hpos : 0 < S := by omega
  have hdiv : (i * S + j) / S = i := by
    rw [Nat.add_comm, Nat.add_mul_div_right _ _ hpos, Nat.div_eq_of_lt hj]
    omega
  have hmod : (i * S + j) % S = j := by
    rw [Nat.add_comm, Nat.add_mul_mod_self_right, Nat.mod_eq_of_lt hj]
  have hw : wrapInt64 ((S : Int) - (j : Int)) = (S : Int) - (j : Int) := by
    apply wrapInt64_of_inRange <;> omega
  unfold specRow
  rw [threshold_eq, hdiv, hmod, hw]
  push_cast
  rfl

/-- The inner loop, started at `j` on the first `i * S + j` specified entries, ends
with the first `i * S + S` specified entries, given more fuel than iterations left. -/
theorem initDivisionsInner_run (S : Nat) (dp : Int) (i : Nat) (hi : i < 5)
    (hS : (S : Int) < 9223372036854775808) :
    ∀ (n j fuel : Nat), j + n = S → n < fuel →
      initDivisionsInner (S : Int) dp (wrapInt64 (dp * (S : Int))) (i : Int) fuel (j : Int)
          ((List.range (i * S + j)).map (specRow S dp))
        = Outcome.done ((List.range (i * S + S)).map (specRow S dp)) := by
  intro n
  induction n with
  | zero =>
    intro j fuel hj hf
    obtain ⟨fuel1, rfl⟩ : ∃ k, fuel = k + 1 := ⟨fuel - 1, by omega⟩
    have hjS : j = S := by omega
    subst hjS
    simp [initDivisionsInner]
  | succ n ih =>
    intro j fuel hj hf
    obtain ⟨fuel1, rfl⟩ : ∃ k, fuel = k + 1 := ⟨fuel - 1, by omega⟩
    have hjS : ((j : Int) = (S : Int)) = False := by
      apply eq_false
      omega
    have hw : wrapInt64 ((j : Int) + 1) = ((j + 1 : Nat) : Int) := by
      rw [wrapInt64_of_inRange] <;> omega
    have hrow := inner_row_eq S dp i j (by omega) hS
    unfold initDivisionsInner
    simp only [hjS, if_false, divisionNameAt_nat i hi, hw, hrow]
    have hacc : List.map (specRow S dp) (List.range (i * S + j)) ++ [specRow S dp (i * S + j)]
        = List.map (specRow S dp) (List.range (i * S + (j + 1))) := by
      rw [← Nat.add_assoc, List.range_succ, List.map_append]
      rfl
    rw [hacc]
    exact ih (j + 1) fuel1 (by omega) (by omega)

/-- The outer loop, started at tier `i` on the first `i * S` specified entries, ends
at tier `D` with the first `D * S` specified entries. -/
theorem initDivisionsOuter_run (D S : Nat) (dp : Int) (budget : Nat) (hD : D < 5)
    (hS : (S : Int) < 9223372036854775808) (hb : S < budget) :
    ∀ (n i fuel : Nat), i + n = D → n < fuel →
      initDivisionsOuter (D : Int) (S : Int) dp (wrapInt64 (dp * (S : Int))) budget fuel
          (i : Int) ((List.range (i * S)).map (specRow S dp))
        = Outcome.done ((List.range (D * S)).map (specRow S dp), (D : Int)) := by
  intro n
  induction n with
  | zero =>
    intro i fuel hi hf
    obtain ⟨fuel1, rfl⟩ : ∃ k, fuel = k + 1 := ⟨fuel - 1, by omega⟩
    have hiD : i = D := by omega
    subst hiD
    simp [initDivisionsOuter]
  | succ n ih =>
    intro i fuel hi hf
    obtain ⟨fuel1, rfl⟩ : ∃ k, fuel = k + 1 := ⟨fuel - 1, by omega⟩
    have hiD : ((i : Int) = (D : Int)) = False := by
      apply eq_false
      omega
    have hw : wrapInt64 ((i : Int) + 1) = ((i + 1 : Nat) : Int) := by
      rw [wrapInt64_of_inRange] <;> omega
    have hinner := initDivisionsInner_run S dp i (by omega) hS S 0 budget (by omega) hb
    rw [Nat.add_zero] at hinner
    have hnext : i * S + S = (i + 1) * S := by ring
    rw [hnext] at hinner
    unfold initDivisionsOuter
    have h0 : ((0 : Nat) : Int) = 0 := rfl
    rw [h0] at hinner
    simp only [hiD, if_false, hinner, hw]
    exact ih (i + 1) fuel1 (by omega) (by omega)

/-- With a non-overflowing capacity and more fuel than either loop needs,
`initDivisions` returns the specified table. -/
theorem initDivisions_eq_spec (D S : Nat) (dp : Int) (fuel : Nat) (hD : D < 5)
    (hS : (S : Int) < 9223372036854775808)
    (hcap : (D : Int) * (S : Int) + 1 < 9223372036854775808)
    (hfD : D < fuel) (hfS : S < fuel) :
    initDivisions fuel (D : Int) (S : Int) dp = Outcome.done (specDivisions D S dp) := by
  have hprod : 0 ≤ (D : Int) * (S : Int) := by positivity
  have hcap2 : ¬ wrapInt64 (wrapInt64 ((D : Int) * (S : Int)) + 1) < 0 := by
    rw [wrapInt64_of_inRange ((D : Int) * (S : Int)) (by omega) (by omega),
      wrapInt64_of_inRange _ (by omega) (by omega)]
    omega
  have houter := initDivisionsOuter_run D S dp fuel hD hS hfS D 0 fuel (by omega) hfD
  rw [Nat.zero_mul] at houter
  have hlast : wrapInt64 (wrapInt64 (dp * (S : Int)) * (D : Int))
      = wrapInt64 (dp * (S : Int) * (D : Int)) := wrapInt64_mul_left _ _
  unfold initDivisions
  simp only [hcap2, if_false]
  have h0 : ((0 : Nat) : Int) = 0 := rfl
  rw [h0] at houter
  simp only [List.range_zero, List.map_nil] at houter
  simp only [houter, divisionNameAt_nat D hD, hlast]
  rfl

/-! ## Shape of the specified table -/

theorem specDivisions_length (D S : Nat) (dp : Int) :
    (specDivisions D S dp).length = D * S + 1 := by
  simp [specDivisions]

/-- A numbered entry of the specified table. -/
theorem specDivisions_numbered (D S : Nat) (dp : Int) (k : Nat) (hk : k < D * S) :
    (specDivisions D S dp)[k]? = some (specRow S dp k) := by
  unfold specDivisions
  rw [List.getElem?_append_left (by simpa using hk)]
  simp [List.getElem?_range hk]

/-- The last entry of the specified table. -/
theorem specDivisions_last (D S : Nat) (dp : Int) :
    (specDivisions D S dp)[D * S]? =
      some { Name := divisionNames.getD D "",
             Points := wrapInt64 (dp * (S : Int) * (D : Int)) } := by
  unfold specDivisions
  rw [List.getElem?_append_right (by simp)]
  simp

/-- Every entry of the specified table has the `int64` value of `divisionPoints * k`
as its threshold, `k` being its index. -/
theorem specDivisions_points (D S : Nat) (dp : Int) (k : Nat) (x : Division)
    (h : (specDivisions D S dp)[k]? = some x) :
    k ≤ D * S ∧ x.Points = wrapInt64 (dp * (k : Int)) := by
  rcases Nat.lt_trichotomy k (D * S) with hk | hk | hk
  · rw [specDivisions_numbered D S dp k hk] at h
    cases h
    exact ⟨Nat.le_of_lt hk, rfl⟩
  · subst hk
    rw [specDivisions_last] at h
    cases h
    refine ⟨Nat.le_refl _, ?_⟩
    show wrapInt64 (dp * (S : Int) * (D : Int)) = wrapInt64 (dp * ((D * S : Nat) : Int))
    congr 1
    push_cast
    ring
  · have hlen : (specDivisions D S dp).length ≤ k := by
      rw [specDivisions_length]; omega
    rw [List.getElem?_eq_none hlen] at h
    cases h

/-- A numbered entry of the specified table, by tier `i` and position `j` in it. -/
theorem specRow_at (S : Nat) (dp : Int) (i j : Nat) (hj : j < S) :
    specRow S dp (i * S + j) =
      { Name := (divisionNames.getD i "") ++ " " ++ toString ((S : Int) - (j : Int)),
        Points := wrapInt64 (dp * ((i : Int) * (S : Int) + (j : Int))) } := by
  have hpos : 0 < S := by omega
  have hdiv : (i * S + j) / S = i := by
    rw [Nat.add_comm, Nat.add_mul_div_right _ _ hpos, Nat.div_eq_of_lt hj]
    omega
  have hmod : (i * S + j) % S = j := by
    rw [Nat.add_comm, Nat.add_mul_mod_self_right, Nat.mod_eq_of_lt hj]
  unfold specRow
  rw [hdiv, hmod]
  push_cast
  rfl

/-! ## Table construction -/

/-- Under an allocation limit inside the `int64` range that the capacity does not
exceed, and with more fuel than either loop needs, `initDivisionsWithin` returns the
specified table. -/
theorem initDivisionsWithin_eq_spec (limit : Int) (D S : Nat) (dp : Int) (fuel : Nat)
    (hD : D < 5) (hS : (S : Int) < 9223372036854775808)
    (hlimit : limit < 9223372036854775808)
    (hcap : (D : Int) * (S : Int) + 1 ≤ limit)
    (hfD : D < fuel) (hfS : S < fuel) :
    initDivisionsWithin limit fuel (D : Int) (S : Int) dp
      = Outcome.done (specDivisions D S dp) := by
  have hprod : 0 ≤ (D : Int) * (S : Int) := by positivity
  have hcap2 : ¬ limit < wrapInt64 (wrapInt64 ((D : Int) * (S : Int)) + 1) := by
    rw [wrapInt64_of_inRange ((D : Int) * (S : Int)) (by omega) (by omega),
      wrapInt64_of_inRange _ (by omega) (by omega)]
    omega
  unfold initDivisionsWithin
  rw [if_neg hcap2]
  exact initDivisions_eq_spec D S dp fuel hD hS (by omega) hfD hfS

/-- Every table built under an allocation limit is the table `initDivisions` builds
with the same budget. -/
theorem initDivisionsWithin_done (limit : Int) (fuel : Nat) (dc sc dp : Int)
    (table : List Division)
    (h : initDivisionsWithin limit fuel dc sc dp = Outcome.done table) :
    initDivisions fuel dc sc dp = Outcome.done table := by
  unfold initDivisionsWithin at h
  split_ifs at h
  exact h

/-- C12, as stated, fails, in three ways.  With two tiers of `2^62` subdivisions the
capacity `divisionCount*subdivisionCount+1` wraps to a negative `int64` and `make`
panics, whatever the allocation limit and the iteration budget.  With one tier of
`2^45` subdivisions the capacity `2^45+1` exceeds the allocation limit of a runtime
with `2^48` bytes of address space and `make` panics as well.  With two tiers of two
subdivisions of `2^62` points the table is built, but the threshold of the entry at
index `1*2 + 0` is `-2^63`, not `2^62 * 2 = 2^63`: thresholds are `int64` values. -/
theorem initDivisions_panics_or_wraps :
    (¬ ∃ (limit : Int) (fuel : Nat) (table : List Division),
        initDivisionsWithin limit fuel 2 4611686018427387904 100 = Outcome.done table) ∧
    (¬ ∃ (fuel : Nat) (table : List Division),
        initDivisionsWithin allocationLimit fuel 1 35184372088832 100
          = Outcome.done table) ∧
    initDivisionsWithin allocationLimit 3 2 2 4611686018427387904 = Outcome.done
      [{ Name := "Bronze 2", Points := 0 },
       { Name := "Bronze 1", Points := 4611686018427387904 },
       { Name := "Silver 2", Points := -9223372036854775808 },
       { Name := "Silver 1", Points := -4611686018427387904 },
       { Name := "Gold", Points := 0 }] ∧
    (-9223372036854775808 : Int) ≠ 4611686018427387904 * (1 * 2 + 0) := by
  refine ⟨?_, ?_, by decide, by decide⟩
  · rintro ⟨limit, fuel, table, h⟩
    have hp : initDivisions fuel 2 4611686018427387904 100 = Outcome.panicked := by
      unfold initDivisions
      rw [if_pos (by decide)]
    rw [initDivisionsWithin_done limit fuel _ _ _ table h] at hp
    cases hp
  · rintro ⟨fuel, table, h⟩
    have hp : initDivisionsWithin allocationLimit fuel 1 35184372088832 100
        = Outcome.panicked := by
      unfold initDivisionsWithin
      rw [if_pos (by decide)]
    rw [hp] at h
    cases h

/-- C12 (amended): for `0 <= divisionCount < number of tier names`,
`subdivisionCount >= 0` and a capacity `divisionCount*subdivisionCount + 1` that does
not overflow `int64` and does not exceed the largest capacity `make` can allocate,
`initDivisions` (given enough iterations) produces exactly
`divisionCount*subdivisionCount + 1` entries; the entry at index
`i*subdivisionCount + j` is named `"<divisionNames[i]> <subdivisionCount - j>"` and has
the `int64` threshold `divisionPoints*(i*subdivisionCount + j)`; the last entry is
named `divisionNames[divisionCount]` and has the `int64` threshold
`divisionPoints*subdivisionCount*divisionCount`. -/
theorem initDivisions_table (limit : Int) (D S : Nat) (dp : Int)
    (hD : D < divisionNames.length)
    (hS : (S : Int) < 9223372036854775808)
    (hlimit : limit < 9223372036854775808)
    (hcap : (D : Int) * (S : Int) + 1 ≤ limit) :
    (∀ fuel, D < fuel → S < fuel →
      initDivisionsWithin limit fuel (D : Int) (S : Int) dp
        = Outcome.done (specDivisions D S dp)) ∧
    (specDivisions D S dp).length = D * S + 1 ∧
    (∀ i j, i < D → j < S →
      (specDivisions D S dp)[i * S + j]? =
        some { Name := (divisionNames.getD i "") ++ " " ++ toString ((S : Int) - (j : Int)),
               Points := wrapInt64 (dp * ((i : Int) * (S : Int) + (j : Int))) }) ∧
    (specDivisions D S dp)[D * S]? =
      some { Name := divisionNames.getD D "",
             Points := wrapInt64 (dp * (S : Int) * (D : Int)) } := by
  have hD5 : D < 5 := hD
  refine ⟨?_, specDivisions_length D S dp, ?_, specDivisions_last D S dp⟩
  · intro fuel hfD hfS
    exact initDivisionsWithin_eq_spec limit D S dp fuel hD5 hS hlimit hcap hfD hfS
  · intro i j hi hj
    have hk : i * S + j < D * S := by
      have h1 : (i + 1) * S ≤ D * S := Nat.mul_le_mul_right S hi
      have h2 : (i + 1) * S = i * S + S := by ring
      omega
    rw [specDivisions_numbered D S dp _ hk, specRow_at S dp i j hj]

/-- Witness for C12 (amended): two tiers of three subdivisions, 100 points each, under
the allocation limit of a runtime with `2^48` bytes of address space. -/
theorem initDivisions_table_witness :
    initDivisionsWithin allocationLimit 4 2 3 100 = Outcome.done
      [{ Name := "Bronze 3", Points := 0 }, { Name := "Bronze 2", Points := 100 },
       { Name := "Bronze 1", Points := 200 }, { Name := "Silver 3", Points := 300 },
       { Name := "Silver 2", Points := 400 }, { Name := "Silver 1", Points := 500 },
       { Name := "Gold", Points := 600 }] :=
  ((initDivisions_table allocationLimit 2 3 100 (by decide) (by decide) (by decide)
    (by decide)).1 4 (by decide) (by decide)).trans (by decide)

/-! ## Thresholds increase -/

/-- C11: for a valid configuration (`0 <= divisionCount < number of tier names`,
`subdivisionCount >= 0`, `divisionPoints > 0`, neither the capacity nor the largest
threshold overflowing `int64`) the table built by `initDivisions` has thresholds
strictly increasing with the index, and its entry 0 has threshold 0. -/
theorem thresholds_strictly_increasing (D S : Nat) (dp : Int)
    (hD : D < divisionNames.length)
    (hS : (S : Int) < 9223372036854775808)
    (hdp : 0 < dp)
    (hcap : (D : Int) * (S : Int) + 1 < 9223372036854775808)
    (hmax : dp * (S : Int) * (D : Int) < 9223372036854775808) :
    ∃ table : List Division,
      (∀ fuel, D < fuel → S < fuel →
        initDivisions fuel (D : Int) (S : Int) dp = Outcome.done table) ∧
      (∀ (a b : Nat) (x y : Division), a < b → table[a]? = some x → table[b]? = some y →
        x.Points < y.Points) ∧
      (∃ x, table[0]? = some x ∧ x.Points = 0) := by
  have hD5 : D < 5 := hD
  have hin : ∀ k : Nat, k ≤ D * S → wrapInt64 (dp * (k : Int)) = dp * (k : Int) := by
    intro k hk
    have h1 : (k : Int) ≤ ((D * S : Nat) : Int) := by exact_mod_cast hk
    have h2 : dp * (k : Int) ≤ dp * ((D * S : Nat) : Int) :=
      mul_le_mul_of_nonneg_left h1 (le_of_lt hdp)
    have h3 : dp * ((D * S : Nat) : Int) = dp * (S : Int) * (D : Int) := by
      push_cast; ring
    have h4 : 0 ≤ dp * (k : Int) := mul_nonneg (le_of_lt hdp) (Int.ofNat_nonneg k)
    apply wrapInt64_of_inRange <;> omega
  refine ⟨specDivisions D S dp, ?_, ?_, ?_⟩
  · intro fuel hfD hfS
    exact initDivisions_eq_spec D S dp fuel hD5 hS hcap hfD hfS
  · intro a b x y hab hx hy
    obtain ⟨ha, hxp⟩ := specDivisions_points D S dp a x hx
    obtain ⟨hb, hyp⟩ := specDivisions_points D S dp b y hy
    rw [hxp, hyp, hin a ha, hin b hb]
    have hlt : (a : Int) < (b : Int) := by exact_mod_cast hab
    exact mul_lt_mul_of_pos_left hlt hdp
  · have hlen : 0 < (specDivisions D S dp).length := by
      rw [specDivisions_length]; omega
    refine ⟨(specDivisions D S dp)[0], List.getElem?_eq_getElem hlen, ?_⟩
    have h := specDivisions_points D S dp 0 _ (List.getElem?_eq_getElem hlen)
    rw [h.2]
    show wrapInt64 (dp * ((0 : Nat) : Int)) = 0
    rw [Nat.cast_zero, mul_zero]
    rfl

/-- Witness for C11: two tiers of three subdivisions, 100 points each. -/
theorem thresholds_strictly_increasing_witness :
    ∃ table : List Division,
      (∀ fuel, 2 < fuel → 3 < fuel →
        initDivisions fuel ((2 : Nat) : Int) ((3 : Nat) : Int) 100 = Outcome.done table) ∧
      (∀ (a b : Nat) (x y : Division), a < b → table[a]? = some x → table[b]? = some y →
        x.Points < y.Points) ∧
      (∃ x, table[0]? = some x ∧ x.Points = 0) :=
  thresholds_strictly_increasing 2 3 100 (by decide) (by decide) (by decide) (by decide)
    (by decide)

/-! ## `GetDivision` -/

/-- The scan from `n` downwards: if some entry below `n` has a threshold `<= points`,
the scan ends at the greatest such index. -/
theorem GetDivisionScan_spec (d : List Division) (points : Int) :
    ∀ n, n ≤ d.length →
      (∃ (j : Nat) (x : Division), j < n ∧ d[j]? = some x ∧ x.Points ≤ points) →
      ∃ (i : Nat) (x : Division), i < n ∧
        GetDivisionScan d points n = Outcome.done (some x, (i : Int)) ∧
        d[i]? = some x ∧ x.Points ≤ points ∧
        ∀ (k : Nat) (y : Division), i < k → k < n → d[k]? = some y → points < y.Points := by
  intro n
  induction n with
  | zero =>
    rintro _ ⟨j, x, hj, _⟩
    omega
  | succ n ih =>
    intro hn hex
    have hlt : n < d.length := hn
    have hz : d[n]? = some d[n] := List.getElem?_eq_getElem hlt
    by_cases hge : points ≥ d[n].Points
    · refine ⟨n, d[n], Nat.lt_succ_self n, ?_, hz, hge, ?_⟩
      · simp [GetDivisionScan, hz, hge]
      · intro k y hk1 hk2
        omega
    · obtain ⟨j, x, hj, hjx, hjp⟩ := hex
      have hjn : j < n := by
        rcases Nat.lt_or_ge j n with h | h
        · exact h
        · have hjeq : j = n := by omega
          subst hjeq
          rw [hz] at hjx
          cases hjx
          exact absurd hjp hge
      have hn0 : n ≠ 0 := by omega
      obtain ⟨i, x1, hi, hscan, hix, hip, hgreat⟩ :=
        ih (Nat.le_of_lt hlt) ⟨j, x, hjn, hjx, hjp⟩
      refine ⟨i, x1, Nat.lt_succ_of_lt hi, ?_, hix, hip, ?_⟩
      · simp [GetDivisionScan, hz, hge, hn0, hscan]
      · intro k y hk1 hk2 hky
        rcases Nat.lt_or_ge k n with h | h
        · exact hgreat k y hk1 h hky
        · have hkeq : k = n := by omega
          subst hkeq
          rw [hz] at hky
          cases hky
          exact lt_of_not_ge hge

/-- The scan from `n >= 1` downwards over entries that all have a threshold above
`points` ends with a nil division and position 0. -/
theorem GetDivisionScan_below (d : List Division) (points : Int) :
    ∀ n, 0 < n → n ≤ d.length →
      (∀ (k : Nat) (y : Division), k < n → d[k]? = some y → points < y.Points) →
      GetDivisionScan d points n = Outcome.done (Option.none, 0) := by
  intro n
  induction n with
  | zero => intro h; omega
  | succ n ih =>
    intro _ hn hall
    have hlt : n < d.length := hn
    have hz : d[n]? = some d[n] := List.getElem?_eq_getElem hlt
    have hge : ¬ points ≥ d[n].Points := not_le.mpr (hall n d[n] (Nat.lt_succ_self n) hz)
    by_cases hn0 : n = 0
    · subst hn0
      simp [GetDivisionScan, hz, hge]
    · have hrec := ih (by omega) (Nat.le_of_lt hlt)
        (fun k y hk hky => hall k y (Nat.lt_succ_of_lt hk) hky)
      simp [GetDivisionScan, hz, hge, hn0, hrec]

/-- On a non-empty table the scan never panics and returns a position inside the
table. -/
theorem GetDivision_total (d : List Division) (points : Int) (hne : d ≠ []) :
    ∃ (o : Option Division) (p : Nat), p < d.length ∧
      GetDivision d points = Outcome.done (o, (p : Int)) := by
  have hpos : 0 < d.length := List.length_pos.mpr hne
  by_cases hex : ∃ (j : Nat) (x : Division), j < d.length ∧ d[j]? = some x ∧ x.Points ≤ points
  · obtain ⟨i, x, hi, hscan, _⟩ := GetDivisionScan_spec d points d.length (Nat.le_refl _) hex
    exact ⟨some x, i, hi, hscan⟩
  · refine ⟨Option.none, 0, hpos, ?_⟩
    apply GetDivisionScan_below d points d.length hpos (Nat.le_refl _)
    intro k y hk hky
    by_contra hcon
    exact hex ⟨k, y, hk, hky, not_lt.mp hcon⟩

/-- C13: for a table `d` (sorted or not) and a points value for which some threshold
is `<= points` (so `d` is non-empty), `GetDivision` ends without panic and returns
`(&d[i], i)` where `i` is the greatest index with `d[i].Points <= points`: the entry at
`i` has a threshold `<= points` and every entry above `i` a threshold `> points`. -/
theorem GetDivision_greatest (d : List Division) (points : Int)
    (hex : ∃ (j : Nat) (x : Division), d[j]? = some x ∧ x.Points ≤ points) :
    d ≠ [] ∧
    ∃ (i : Nat) (x : Division),
      GetDivision d points = Outcome.done (some x, (i : Int)) ∧
      d[i]? = some x ∧ x.Points ≤ points ∧
      ∀ (k : Nat) (y : Division), i < k → d[k]? = some y → points < y.Points := by
  obtain ⟨j, x, hjx, hjp⟩ := hex
  have hj : j < d.length := by
    by_contra hcon
    rw [List.getElem?_eq_none (not_lt.mp hcon)] at hjx
    cases hjx
  refine ⟨List.length_pos.mp (by omega), ?_⟩
  obtain ⟨i, x1, _, hscan, hix, hip, hgreat⟩ :=
    GetDivisionScan_spec d points d.length (Nat.le_refl _) ⟨j, x, hj, hjx, hjp⟩
  refine ⟨i, x1, hscan, hix, hip, ?_⟩
  intro k y hk hky
  have hkl : k < d.length := by
    by_contra hcon
    rw [List.getElem?_eq_none (not_lt.mp hcon)] at hky
    cases hky
  exact hgreat k y hk hkl hky

/-- Witness for C13: in the unsorted table 300, 100, 500, 200 the greatest index with
a threshold `<= 250` is 3. -/
theorem GetDivision_greatest_witness :
    unsortedDivisions ≠ [] ∧
    ∃ (i : Nat) (x : Division),
      GetDivision unsortedDivisions 250 = Outcome.done (some x, (i : Int)) ∧
      unsortedDivisions[i]? = some x ∧ x.Points ≤ 250 ∧
      ∀ (k : Nat) (y : Division), i < k → unsortedDivisions[k]? = some y → 250 < y.Points :=
  GetDivision_greatest unsortedDivisions 250 ⟨1, { Name := "B", Points := 100 }, rfl, by decide⟩

/-! ## Points below every threshold -/

/-- C15, as stated, fails: on the one-entry table with threshold 0, `GetDivision(-1)`
returns a nil division (with position 0), not the division at index 0. -/
theorem GetDivision_below_is_nil :
    GetDivision bronzeOnly (-1) = Outcome.done (Option.none, 0) ∧
    GetDivision bronzeOnly (-1) ≠ Outcome.done (bronzeOnly[0]?, 0) := by
  decide

/-- C15 (amended): for a non-empty table and a points value below every threshold,
`GetDivision` does not fail and returns a nil division together with rank index 0. -/
theorem GetDivision_below (d : List Division) (points : Int) (hne : d ≠ [])
    (hall : ∀ x ∈ d, points < x.Points) :
    GetDivision d points = Outcome.done (Option.none, 0) := by
  apply GetDivisionScan_below d points d.length (List.length_pos.mpr hne) (Nat.le_refl _)
  intro k y _ hky
  exact hall y (List.getElem?_mem hky)

/-- Witness for C15 (amended): a negative total on the sample table. -/
theorem GetDivision_below_witness :
    GetDivision sampleDivisions (-5) = Outcome.done (Option.none, 0) :=
  GetDivision_below sampleDivisions (-5) (by decide) (by decide)

/-! ## Boundary inclusivity -/

/-- In a valid configuration the thresholds of the specified table increase strictly
with the index. -/
theorem specDivisions_strictMono (D S : Nat) (dp : Int) (hdp : 0 < dp)
    (hmax : dp * (S : Int) * (D : Int) < 9223372036854775808)
    (a b : Nat) (x y : Division) (hab : a < b)
    (hx : (specDivisions D S dp)[a]? = some x) (hy : (specDivisions D S dp)[b]? = some y) :
    x.Points < y.Points := by
  have hin : ∀ k : Nat, k ≤ D * S → wrapInt64 (dp * (k : Int)) = dp * (k : Int) := by
    intro k hk
    have h1 : (k : Int) ≤ ((D * S : Nat) : Int) := by exact_mod_cast hk
    have h2 : dp * (k : Int) ≤ dp * ((D * S : Nat) : Int) :=
      mul_le_mul_of_nonneg_left h1 (le_of_lt hdp)
    have h3 : dp * ((D * S : Nat) : Int) = dp * (S : Int) * (D : Int) := by
      push_cast; ring
    have h4 : 0 ≤ dp * (k : Int) := mul_nonneg (le_of_lt hdp) (Int.ofNat_nonneg k)
    apply wrapInt64_of_inRange <;> omega
  obtain ⟨ha, hxp⟩ := specDivisions_points D S dp a x hx
  obtain ⟨hb, hyp⟩ := specDivisions_points D S dp b y hy
  rw [hxp, hyp, hin a ha, hin b hb]
  have hlt : (a : Int) < (b : Int) := by exact_mod_cast hab
  exact mul_lt_mul_of_pos_left hlt hdp

/-- On a table whose thresholds increase strictly with the index, looking up the
threshold of entry `k` returns entry `k`. -/
theorem GetDivision_of_strictMono (d : List Division)
    (hmono : ∀ (a b : Nat) (x y : Division), a < b → d[a]? = some x → d[b]? = some y →
      x.Points < y.Points)
    (k : Nat) (x : Division) (hk : d[k]? = some x) :
    GetDivision d x.Points = Outcome.done (some x, (k : Int)) := by
  have hkl : k < d.length := by
    by_contra hcon
    rw [List.getElem?_eq_none (not_lt.mp hcon)] at hk
    cases hk
  obtain ⟨i, x1, hi, hscan, hix, hip, hgreat⟩ :=
    GetDivisionScan_spec d x.Points d.length (Nat.le_refl _) ⟨k, x, hkl, hk, le_refl _⟩
  have hik : i = k := by
    rcases Nat.lt_trichotomy i k with h | h | h
    · exact absurd (hgreat k x h hkl hk) (lt_irrefl _)
    · exact h
    · exact absurd (hmono k i x x1 h hk hix) (not_lt.mpr hip)
  subst hik
  rw [hk] at hix
  cases hix
  exact hscan

/-- C14: for a table built by `initDivisions` from a valid configuration
(`divisionPoints > 0`, nothing overflowing `int64`) and every index `k` of the table,
`GetDivision(divisions[k].Points)` returns the division at index `k` together with
position `k`; in particular `GetDivision(0)` returns the division at index 0 with
position 0. -/
theorem boundary_inclusive (D S : Nat) (dp : Int)
    (hD : D < divisionNames.length)
    (hS : (S : Int) < 9223372036854775808)
    (hdp : 0 < dp)
    (hcap : (D : Int) * (S : Int) + 1 < 9223372036854775808)
    (hmax : dp * (S : Int) * (D : Int) < 9223372036854775808) :
    ∃ table : List Division,
      (∀ fuel, D < fuel → S < fuel →
        initDivisions fuel (D : Int) (S : Int) dp = Outcome.done table) ∧
      (∀ (k : Nat) (x : Division), table[k]? = some x →
        GetDivision table x.Points = Outcome.done (some x, (k : Int))) ∧
      (∃ x, table[0]? = some x ∧ GetDivision table 0 = Outcome.done (some x, 0)) := by
  have hD5 : D < 5 := hD
  have hmono := specDivisions_strictMono D S dp hdp hmax
  refine ⟨specDivisions D S dp, ?_, ?_, ?_⟩
  · intro fuel hfD hfS
    exact initDivisions_eq_spec D S dp fuel hD5 hS hcap hfD hfS
  · intro k x hk
    exact GetDivision_of_strictMono _ hmono k x hk
  · have hlen : 0 < (specDivisions D S dp).length := by
      rw [specDivisions_length]; omega
    have h0 : (specDivisions D S dp)[0]? = some (specDivisions D S dp)[0] :=
      List.getElem?_eq_getElem hlen
    have hp : (specDivisions D S dp)[0].Points = 0 := by
      rw [(specDivisions_points D S dp 0 _ h0).2]
      show wrapInt64 (dp * ((0 : Nat) : Int)) = 0
      rw [Nat.cast_zero, mul_zero]
      rfl
    refine ⟨_, h0, ?_⟩
    have h := GetDivision_of_strictMono _ hmono 0 _ h0
    rw [hp] at h
    exact h

/-- Witness for C14: two tiers of three subdivisions, 100 points each. -/
theorem boundary_inclusive_witness :
    ∃ table : List Division,
      (∀ fuel, 2 < fuel → 3 < fuel →
        initDivisions fuel ((2 : Nat) : Int) ((3 : Nat) : Int) 100 = Outcome.done table) ∧
      (∀ (k : Nat) (x : Division), table[k]? = some x →
        GetDivision table x.Points = Outcome.done (some x, (k : Int))) ∧
      (∃ x, table[0]? = some x ∧ GetDivision table 0 = Outcome.done (some x, 0)) :=
  boundary_inclusive 2 3 100 (by decide) (by decide) (by decide) (by decide) (by decide)

/-! ## `GetDifference` -/

/-- C16: for a non-empty table (whose length, like that of every Go slice, fits in
`int64`) and all points values `a`, `b`, `GetDifference(a, b)` is the rank index of
`b` minus the rank index of `a` as returned by `GetDivision`; hence
`GetDifference(b, a)` is its negation and `GetDifference(a, a)` is 0. -/
theorem GetDifference_antisymm (d : List Division) (a b : Int) (hne : d ≠ [])
    (hlen : (d.length : Int) ≤ 9223372036854775808) :
    ∃ (da db : Option Division) (pa pb : Int),
      GetDivision d a = Outcome.done (da, pa) ∧
      GetDivision d b = Outcome.done (db, pb) ∧
      GetDifference d a b = Outcome.done (pb - pa) ∧
      GetDifference d b a = Outcome.done (-(pb - pa)) ∧
      GetDifference d a a = Outcome.done 0 := by
  obtain ⟨da, pa, hpa, ha⟩ := GetDivision_total d a hne
  obtain ⟨db, pb, hpb, hb⟩ := GetDivision_total d b hne
  refine ⟨da, db, (pa : Int), (pb : Int), ha, hb, ?_, ?_, ?_⟩
  · simp only [GetDifference, ha, hb]
    rw [wrapInt64_of_inRange] <;> omega
  · simp only [GetDifference, ha, hb]
    rw [wrapInt64_of_inRange] <;> first | omega | (congr 1; omega)
  · simp only [GetDifference, ha]
    rw [wrapInt64_of_inRange] <;> first | omega | (congr 1; omega)

/-- Witness for C16: 150 points (rank 1) against 450 points (rank 4) on the sample
table. -/
theorem GetDifference_antisymm_witness :
    ∃ (da db : Option Division) (pa pb : Int),
      GetDivision sampleDivisions 150 = Outcome.done (da, pa) ∧
      GetDivision sampleDivisions 450 = Outcome.done (db, pb) ∧
      GetDifference sampleDivisions 150 450 = Outcome.done (pb - pa) ∧
      GetDifference sampleDivisions 450 150 = Outcome.done (-(pb - pa)) ∧
      GetDifference sampleDivisions 150 150 = Outcome.done 0 :=
  GetDifference_antisymm sampleDivisions 150 450 (by decide) (by decide)

/-! ## `Maps.Random` -/

/-- The veto check succeeds exactly when some non-nil veto entry has the map's
`BattleNetID` and `Region`. -/
theorem vetoed_iff (x : Map) (veto : List (List (Option Map))) :
    Maps.vetoed x veto = true ↔
      ∃ l ∈ veto, ∃ v : Map, some v ∈ l ∧ x.BattleNetID = v.BattleNetID ∧
        x.Region = v.Region := by
  unfold Maps.vetoed
  simp only [List.any_eq_true]
  constructor
  · rintro ⟨l, hl, e, he, h⟩
    cases e with
    | none => cases h
    | some v =>
      simp only [Bool.and_eq_true, beq_iff_eq] at h
      exact ⟨l, hl, v, he, h.1, h.2⟩
  · rintro ⟨l, hl, v, hv, h1, h2⟩
    refine ⟨l, hl, some v, hv, ?_⟩
    simp [h1, h2]

/-- The slice `pool` holds exactly the in-region ranked maps that pass the veto
check. -/
theorem mem_pool (m : List Map) (region : BattleNetRegion) (veto : List (List (Option Map)))
    (x : Map) :
    x ∈ Maps.pool m region veto ↔
      x ∈ m ∧ x.Region = region ∧ x.InRankedPool = true ∧ Maps.vetoed x veto = false := by
  induction m with
  | nil => simp [Maps.pool]
  | cons y rest ih =>
    unfold Maps.pool
    by_cases h1 : y.Region ≠ region ∨ (!y.InRankedPool) = true
    · rw [if_pos h1, ih]
      constructor
      · rintro ⟨hx, h⟩
        exact ⟨List.mem_cons_of_mem _ hx, h⟩
      · rintro ⟨hx, hr, hp, hv⟩
        rcases List.mem_cons.mp hx with heq | hx
        · subst heq
          rcases h1 with h | h
          · exact absurd hr h
          · simp [hp] at h
        · exact ⟨hx, hr, hp, hv⟩
    · rw [if_neg h1]
      have hy : y.Region = region ∧ y.InRankedPool = true := by
        constructor
        · by_contra hc; exact h1 (Or.inl hc)
        · by_contra hc
          apply h1
          right
          simpa using hc
      by_cases h2 : Maps.vetoed y veto = true
      · rw [if_pos h2, ih]
        constructor
        · rintro ⟨hx, h⟩
          exact ⟨List.mem_cons_of_mem _ hx, h⟩
        · rintro ⟨hx, hr, hp, hv⟩
          rcases List.mem_cons.mp hx with heq | hx
          · subst heq
            rw [hv] at h2
            cases h2
          · exact ⟨hx, hr, hp, hv⟩
      · rw [if_neg h2, List.mem_cons, ih]
        constructor
        · rintro (heq | ⟨hx, h⟩)
          · subst heq
            exact ⟨List.mem_cons_self _ _, hy.1, hy.2, by simpa using h2⟩
          · exact ⟨List.mem_cons_of_mem _ hx, h⟩
        · rintro ⟨hx, h⟩
          rcases List.mem_cons.mp hx with heq | hx
          · exact Or.inl heq
          · exact Or.inr ⟨hx, h⟩

/-- What `Maps.Random` returns is an element of `pool`. -/
theorem Random_mem_pool (m : List Map) (region : BattleNetRegion)
    (veto : List (List (Option Map))) (draw : Nat) (x : Map)
    (h : Maps.Random m region veto draw = some x) : x ∈ Maps.pool m region veto := by
  unfold Maps.Random at h
  dsimp only at h
  split_ifs at h
  exact List.getElem?_mem h

/-- With an empty `pool`, `Maps.Random` returns nil. -/
theorem Random_of_pool_nil (m : List Map) (region : BattleNetRegion)
    (veto : List (List (Option Map))) (draw : Nat)
    (h : Maps.pool m region veto = []) : Maps.Random m region veto draw = Option.none := by
  unfold Maps.Random
  simp [h]

/-- With a non-empty `pool`, `Maps.Random` returns a map whatever the draw. -/
theorem Random_ne_none (m : List Map) (region : BattleNetRegion)
    (veto : List (List (Option Map))) (draw : Nat)
    (h : Maps.pool m region veto ≠ []) : Maps.Random m region veto draw ≠ Option.none := by
  have hpos : 0 < (Maps.pool m region veto).length := List.length_pos.mpr h
  have hidx : draw % (Maps.pool m region veto).length < (Maps.pool m region veto).length :=
    Nat.mod_lt _ hpos
  unfold Maps.Random
  dsimp only
  rw [if_neg (by omega), List.getElem?_eq_getElem hidx]
  simp

/-- Every element of `pool` is returned for some draw. -/
theorem Random_reaches (m : List Map) (region : BattleNetRegion)
    (veto : List (List (Option Map))) (x : Map) (h : x ∈ Maps.pool m region veto) :
    ∃ draw, Maps.Random m region veto draw = some x := by
  obtain ⟨n, hn, hx⟩ := List.getElem_of_mem h
  refine ⟨n, ?_⟩
  unfold Maps.Random
  dsimp only
  rw [if_neg (by omega), Nat.mod_eq_of_lt hn, List.getElem?_eq_getElem hn, hx]

/-- C17: for every pool, region, veto lists (nil entries allowed) and random draw,
`Maps.Random` returns nil or a map of the pool that is in the region, ranked, and
present in no veto list; it returns nil when every in-region ranked map is present in
some veto list, and when the region has no ranked map. -/
theorem Random_respects_vetoes (m : List Map) (region : BattleNetRegion)
    (veto : List (List (Option Map))) (draw : Nat) :
    (∀ x, Maps.Random m region veto draw = some x →
      x ∈ m ∧ x.Region = region ∧ x.InRankedPool = true ∧ ∀ l ∈ veto, some x ∉ l) ∧
    ((∀ x ∈ m, x.Region = region → x.InRankedPool = true → ∃ l ∈ veto, some x ∈ l) →
      Maps.Random m region veto draw = Option.none) ∧
    ((∀ x ∈ m, x.Region = region → x.InRankedPool = false) →
      Maps.Random m region veto draw = Option.none) := by
  refine ⟨?_, ?_, ?_⟩
  · intro x hx
    obtain ⟨hm, hr, hp, hv⟩ := (mem_pool m region veto x).mp
      (Random_mem_pool m region veto draw x hx)
    refine ⟨hm, hr, hp, ?_⟩
    intro l hl hmem
    have hvt : Maps.vetoed x veto = true :=
      (vetoed_iff x veto).mpr ⟨l, hl, x, hmem, rfl, rfl⟩
    rw [hv] at hvt
    cases hvt
  · intro hall
    apply Random_of_pool_nil
    apply List.eq_nil_iff_forall_not_mem.mpr
    intro x hx
    obtain ⟨hm, hr, hp, hv⟩ := (mem_pool m region veto x).mp hx
    obtain ⟨l, hl, hmem⟩ := hall x hm hr hp
    have hvt : Maps.vetoed x veto = true :=
      (vetoed_iff x veto).mpr ⟨l, hl, x, hmem, rfl, rfl⟩
    rw [hv] at hvt
    cases hvt
  · intro hall
    apply Random_of_pool_nil
    apply List.eq_nil_iff_forall_not_mem.mpr
    intro x hx
    obtain ⟨hm, hr, hp, _⟩ := (mem_pool m region veto x).mp hx
    rw [hall x hm hr] at hp
    cases hp

/-- Witness for C17: on a pool of three ranked maps of region 1, with a veto list
holding a nil entry and one map, whatever is returned is an unvetoed ranked map of the
region; with every map of the pool in a veto list the result is nil. -/
theorem Random_respects_vetoes_witness :
    (∀ x, Maps.Random distinctPool 1 [[Option.none, some fightingSpirit]] 7 = some x →
      x ∈ distinctPool ∧ x.Region = 1 ∧ x.InRankedPool = true ∧
        ∀ l ∈ [[Option.none, some fightingSpirit]], some x ∉ l) ∧
    Maps.Random distinctPool 1 [distinctPool.map some] 7 = Option.none :=
  ⟨(Random_respects_vetoes distinctPool 1 [[Option.none, some fightingSpirit]] 7).1,
   (Random_respects_vetoes distinctPool 1 [distinctPool.map some] 7).2.1 (by decide)⟩

/-! ## Candidate set of `Maps.Random` -/

/-- C18, as stated, fails: in the built-in pool, vetoing only map 3 in region NA leaves
no map selectable, although maps 4 and 5 are ranked NA maps whose `(Id, Region)`
appears in no veto list: the veto check compares `BattleNetID`, which is 0 for every
built-in map. -/
theorem builtin_veto_removes_all :
    ¬ ∃ (draw : Nat) (x : Map),
        Maps.Random builtinMaps 1 [[some fightingSpirit]] draw = some x := by
  rintro ⟨draw, x, h⟩
  have hnil : Maps.pool builtinMaps 1 [[some fightingSpirit]] = [] := by decide
  rw [Random_of_pool_nil builtinMaps 1 [[some fightingSpirit]] draw hnil] at h
  cases h

/-- C18 (amended): the maps `Maps.Random` can return are exactly the maps of the pool
in the region with `InRankedPool = true` whose `(BattleNetID, Region)` does not appear
in any non-nil entry of any veto list; whenever such a map exists, `Maps.Random`
returns a non-nil map. -/
theorem Random_candidates (m : List Map) (region : BattleNetRegion)
    (veto : List (List (Option Map))) :
    (∀ x, (∃ draw, Maps.Random m region veto draw = some x) ↔
      (x ∈ m ∧ x.Region = region ∧ x.InRankedPool = true ∧
        ∀ l ∈ veto, ∀ v : Map, some v ∈ l →
          ¬ (x.BattleNetID = v.BattleNetID ∧ x.Region = v.Region))) ∧
    ((∃ x, x ∈ m ∧ x.Region = region ∧ x.InRankedPool = true ∧
        ∀ l ∈ veto, ∀ v : Map, some v ∈ l →
          ¬ (x.BattleNetID = v.BattleNetID ∧ x.Region = v.Region)) →
      ∀ draw, Maps.Random m region veto draw ≠ Option.none) := by
  have hcand : ∀ x, x ∈ Maps.pool m region veto ↔
      (x ∈ m ∧ x.Region = region ∧ x.InRankedPool = true ∧
        ∀ l ∈ veto, ∀ v : Map, some v ∈ l →
          ¬ (x.BattleNetID = v.BattleNetID ∧ x.Region = v.Region)) := by
    intro x
    rw [mem_pool]
    constructor
    · rintro ⟨hm, hr, hp, hv⟩
      refine ⟨hm, hr, hp, ?_⟩
      intro l hl v hmem hc
      have hvt : Maps.vetoed x veto = true :=
        (vetoed_iff x veto).mpr ⟨l, hl, v, hmem, hc.1, hc.2⟩
      rw [hv] at hvt
      cases hvt
    · rintro ⟨hm, hr, hp, hall⟩
      refine ⟨hm, hr, hp, ?_⟩
      cases hvt : Maps.vetoed x veto with
      | false => rfl
      | true =>
        obtain ⟨l, hl, v, hmem, h1, h2⟩ := (vetoed_iff x veto).mp hvt
        exact absurd ⟨h1, h2⟩ (hall l hl v hmem)
  constructor
  · intro x
    rw [← hcand x]
    constructor
    · rintro ⟨draw, h⟩
      exact Random_mem_pool m region veto draw x h
    · exact Random_reaches m region veto x
  · rintro ⟨x, hx⟩ draw
    apply Random_ne_none
    intro hnil
    have hmem := (hcand x).mpr hx
    rw [hnil] at hmem
    cases hmem

/-- In `distinctPool` with map 3 of the built-in pool vetoed, map 4 is a candidate. -/
theorem circuitBreaker_candidate :
    circuitBreaker ∈ distinctPool ∧ circuitBreaker.Region = 1 ∧
      circuitBreaker.InRankedPool = true ∧
      ∀ l ∈ [[some fightingSpirit]], ∀ v : Map, some v ∈ l →
        ¬ (circuitBreaker.BattleNetID = v.BattleNetID ∧ circuitBreaker.Region = v.Region) := by
  refine ⟨by decide, by decide, by decide, ?_⟩
  intro l hl v hv hc
  simp only [List.mem_singleton] at hl
  subst hl
  simp only [List.mem_singleton, Option.some.injEq] at hv
  subst hv
  exact absurd hc.1 (by decide)

/-- Witness for C18 (amended): in a pool with distinct `BattleNetID`s, a veto naming
another `BattleNetID` leaves map 4 selectable and every draw returns a map. -/
theorem Random_candidates_witness :
    (∃ draw, Maps.Random distinctPool 1 [[some fightingSpirit]] draw = some circuitBreaker) ∧
    ∀ draw, Maps.Random distinctPool 1 [[some fightingSpirit]] draw ≠ Option.none :=
  ⟨((Random_candidates distinctPool 1 [[some fightingSpirit]]).1 circuitBreaker).mpr
      circuitBreaker_candidate,
   (Random_candidates distinctPool 1 [[some fightingSpirit]]).2
      ⟨circuitBreaker, circuitBreaker_candidate⟩⟩

/-! ## The map pool is not changed by a call -/

theorem settle_maps (env : Env) (f : Faults) (w : World) (replay : Replay)
    (client : Client) (m : Map) (res : MatchResult) (player opponent : MatchResultPlayer) :
    (settle env f w replay client m res player opponent).world.maps = w.maps := by
  unfold settle
  split
  · simp [Ret.fail]
  · dsimp only
    split_ifs <;> simp [Ret.fail, World.emit, World.cacheSet]

theorem NewMatchResult_maps (env : Env) (f : Faults) (w : World) (replay : Replay)
    (client : Client) :
    (NewMatchResult env f w replay client).world.maps = w.maps := by
  unfold NewMatchResult
  dsimp only
  repeat' split
  all_goals first
    | exact settle_maps env f _ replay client _ _ _ _
    | simp [Ret.fail, World.emit]

theorem runCalls_maps (env : Env) :
    ∀ (calls : List Call) (w : World), (runCalls env w calls).maps = w.maps := by
  intro calls
  induction calls with
  | nil => intro w; rfl
  | cons c cs ih =>
    intro w
    exact (ih _).trans (NewMatchResult_maps env c.faults w c.replay c.client)

/-! ## Wrong map -/

/-- What the victor-only application does when the submitter is matched with the
opponent but is not on the record's map. -/
theorem settle_wrongMap (env : Env) (f : Faults) (w : World) (replay : Replay)
    (client : Client) (m : Map) (res : MatchResult) (player opponent : MatchResultPlayer)
    (oc : Client)
    (hcache : w.cacheGet opponent.ClientId = some oc)
    (hmatched : env.IsMatchedWith client oc = true)
    (honmap : env.IsOnMap client m.Id = false) :
    (settle env f w replay client m res player opponent).err
      = some LadderError.ErrLadderWrongMap ∧
    (settle env f w replay client m res player opponent).result = Option.none ∧
    (settle env f w replay client m res player opponent).players = Option.none ∧
    (settle env f w replay client m res player opponent).client = client ∧
    (settle env f w replay client m res player opponent).world.db.results = w.db.results ∧
    (settle env f w replay client m res player opponent).world.db.players = w.db.players ∧
    (settle env f w replay client m res player opponent).world.db.clients = w.db.clients ∧
    (f.source = false →
      (settle env f w replay client m res player opponent).world.db.sources
        = w.db.sources ++ [{ Id := (w.db.sourceSeq : Int) + 1, MatchId := res.Id,
                             ReplayHash := replay.Filehash }]) ∧
    (env.IsMatchedWith oc client = true →
      (settle env f w replay client m res player opponent).world.cache = w.cache ∧
      (settle env f w replay client m res player opponent).world.trace
        = w.trace ++ [Effect.InsertSource replay.Filehash]) ∧
    (env.IsMatchedWith oc client = false →
      (settle env f w replay client m res player opponent).world.cache
        = w.cache.set (w.cachePtr opponent.ClientId) (env.ForefeitMatchmadeMatch oc) ∧
      (settle env f w replay client m res player opponent).world.trace
        = w.trace ++ [Effect.Forfeit oc.Id, Effect.InsertSource replay.Filehash]) := by
  unfold settle
  simp only [hcache, hmatched, honmap]
  by_cases hd : env.IsMatchedWith oc client = true <;> by_cases hs : f.source = true <;>
    simp [hd, hs, Ret.fail, World.emit, World.cacheSet, Db.insertSource]

/-- C19, as stated, fails: session 1, matched with session 2 but on another map,
submits the sample record while session 2 is matched with somebody else.  The call
returns `ErrLadderWrongMap`, and session 2's pending-matchmaking fields have gone from
8 and 9 to 0: the opponent was forfeited before the map check. -/
theorem wrong_map_forfeits_opponent :
    (NewMatchResult sampleEnv Faults.none desyncWorld sampleReplay aliceOffMap).err
        = some LadderError.ErrLadderWrongMap ∧
    desyncWorld.cache = [bobElsewhere] ∧
    (NewMatchResult sampleEnv Faults.none desyncWorld sampleReplay aliceOffMap).world.cache
        = [{ bobElsewhere with PendingMatchmakingId := 0, PendingMatchmakingOpponentId := 0 }] ∧
    (NewMatchResult sampleEnv Faults.none desyncWorld sampleReplay aliceOffMap).world.cache
        ≠ desyncWorld.cache := by
  decide

/-- C19 (amended): for a victor-submitted record that passes every gate up to and
including the pairing check and for which `client.IsOnMap(map.Id)` is false, the call
returns `ErrLadderWrongMap` with nil result and nil players, inserts no `MatchResult`
and no `MatchResultPlayer` row, updates no client row, calls no `Defeat` and leaves the
submitting session unchanged.  The opponent's session is unchanged when it is matched
with the submitter, and otherwise has been forfeited.  When the insert of the source
row succeeds, a `MatchResultSource` row with the record's hash (and `MatchId` 0) has
been inserted, and after any further calls a resubmission of the same record whose
count query succeeds is rejected with `ErrLadderDuplicateReplay`. -/
theorem wrong_map (env : Env) (f : Faults) (w : World) (replay : Replay)
    (client : Client) (m : Map) (player opponent : MatchResultPlayer) (oc : Client)
    (hlen : 120 ≤ replay.GameLength)
    (hmap : Maps.Get w.maps (env.ParseBattleNetRegion replay.Region) replay.MapName = some m)
    (hranked : m.InRankedPool = true)
    (hobs : replay.Observers.length = 0) (hpl : replay.Players.length = 2)
    (hdup : ¬ (f.count = Option.none ∧ w.db.countSources replay.Filehash > 0))
    (hroles : assignRoles env replay client.Id replay.Players Option.none Option.none
      = some (some player, some opponent))
    (hwin : player.Victory = true) (hlose : opponent.Victory = false)
    (hcache : w.cacheGet opponent.ClientId = some oc)
    (hmatched : env.IsMatchedWith client oc = true)
    (honmap : env.IsOnMap client m.Id = false) :
    (NewMatchResult env f w replay client).err = some LadderError.ErrLadderWrongMap ∧
    (NewMatchResult env f w replay client).result = Option.none ∧
    (NewMatchResult env f w replay client).players = Option.none ∧
    (NewMatchResult env f w replay client).client = client ∧
    (NewMatchResult env f w replay client).world.db.results = w.db.results ∧
    (NewMatchResult env f w replay client).world.db.players = w.db.players ∧
    (NewMatchResult env f w replay client).world.db.clients = w.db.clients ∧
    (env.IsMatchedWith oc client = true →
      (NewMatchResult env f w replay client).world.cache = w.cache ∧
      (NewMatchResult env f w replay client).world.trace
        = w.trace ++ [Effect.SelectCount replay.Filehash,
            Effect.LockIds player.ClientId opponent.ClientId,
            Effect.UnlockIds player.ClientId opponent.ClientId,
            Effect.InsertSource replay.Filehash]) ∧
    (env.IsMatchedWith oc client = false →
      (NewMatchResult env f w replay client).world.cache
        = w.cache.set (w.cachePtr opponent.ClientId) (env.ForefeitMatchmadeMatch oc) ∧
      (NewMatchResult env f w replay client).world.trace
        = w.trace ++ [Effect.SelectCount replay.Filehash,
            Effect.LockIds player.ClientId opponent.ClientId,
            Effect.UnlockIds player.ClientId opponent.ClientId,
            Effect.Forfeit oc.Id, Effect.InsertSource replay.Filehash]) ∧
    (f.source = false →
      (NewMatchResult env f w replay client).world.db.sources
        = w.db.sources ++ [{ Id := (w.db.sourceSeq : Int) + 1, MatchId := 0,
                             ReplayHash := replay.Filehash }] ∧
      ∀ (calls : List Call) (f2 : Faults) (client2 : Client), f2.count = Option.none →
        (NewMatchResult env f2
          (runCalls env (NewMatchResult env f w replay client).world calls)
          replay client2).err = some LadderError.ErrLadderDuplicateReplay) := by
  have hvic : player.Victory ≠ opponent.Victory := by rw [hwin, hlose]; simp
  have hmaps := NewMatchResult_maps env f w replay client
  have hpassed := NewMatchResult_passed env f w replay client m player opponent hlen hmap
    hranked hobs hpl hdup hroles hvic
  simp only [hwin, if_true] at hpassed
  have hcache2 : (((w.emit (Effect.SelectCount replay.Filehash)).emit
      (Effect.LockIds player.ClientId opponent.ClientId)).emit
      (Effect.UnlockIds player.ClientId opponent.ClientId)).cacheGet opponent.ClientId
      = some oc := hcache
  obtain ⟨h1, h2, h3, h4, h5, h6, h7, h8, h9, h10⟩ := settle_wrongMap env f
    (((w.emit (Effect.SelectCount replay.Filehash)).emit
      (Effect.LockIds player.ClientId opponent.ClientId)).emit
      (Effect.UnlockIds player.ClientId opponent.ClientId))
    replay client m
    { Id := 0, MapId := m.Id, MatchmakerMatchId := client.PendingMatchmakingId,
      DateTime := replay.UnixTimestamp } player opponent oc hcache2 hmatched honmap
  rw [← hpassed] at h1 h2 h3 h4 h5 h6 h7 h8 h9 h10
  refine ⟨h1, h2, h3, h4, h5, h6, h7, ?_, ?_, ?_⟩
  · intro hd
    obtain ⟨hc, ht⟩ := h9 hd
    exact ⟨hc, by simpa [World.emit] using ht⟩
  · intro hd
    obtain ⟨hc, ht⟩ := h10 hd
    exact ⟨hc, by simpa [World.emit] using ht⟩
  · intro hs
    have hsrc := h8 hs
    refine ⟨hsrc, ?_⟩
    intro calls f2 client2 hq
    have hcount1 : 0 < (NewMatchResult env f w replay client).world.db.countSources
        replay.Filehash := by
      simp [Db.countSources, hsrc, List.filter_append]
    have hmono := runCalls_count_mono env replay.Filehash calls
      (NewMatchResult env f w replay client).world
    have hmap2 : Maps.Get (runCalls env (NewMatchResult env f w replay client).world
        calls).maps (env.ParseBattleNetRegion replay.Region) replay.MapName = some m := by
      rw [runCalls_maps, hmaps]
      exact hmap
    rw [NewMatchResult_duplicate env f2 _ replay client2 m hlen hmap2 hranked hobs hpl hq
      (by omega)]
    rfl

/-- Witness for C19 (amended): session 1, matched with session 2 but on another map,
submits the sample record it won. -/
theorem wrong_map_witness :
    (NewMatchResult sampleEnv Faults.none sampleWorld sampleReplay aliceOffMap).err
        = some LadderError.ErrLadderWrongMap ∧
    (NewMatchResult sampleEnv Faults.none
        (runCalls sampleEnv
          (NewMatchResult sampleEnv Faults.none sampleWorld sampleReplay aliceOffMap).world [])
        sampleReplay aliceOffMap).err = some LadderError.ErrLadderDuplicateReplay :=
  have h := wrong_map sampleEnv Faults.none sampleWorld sampleReplay aliceOffMap sampleMap
    aliceRow bobRow bob (by decide) (by decide) (by decide) (by decide) (by decide)
    (by decide) rfl (by decide) (by decide) (by decide) (by decide) (by decide)
  ⟨h.1, (h.2.2.2.2.2.2.2.2.2 (by decide)).2 [] Faults.none aliceOffMap rfl⟩

/-! ## The source row and its match -/

/-- C20 (the code diverges): in the settled sample submission the persisted and
returned `MatchResult` has the fresh `Id` 1, the two player rows carry `MatchId` 1, but
the inserted `MatchResultSource` row carries `MatchId` 0: `source.MatchId` is copied
from `res.Id` before `res` is inserted. -/
theorem source_row_matchId_zero :
    (NewMatchResult sampleEnv Faults.none sampleWorld sampleReplay alice).result
      = some { Id := 1, MapId := 3, MatchmakerMatchId := 7, DateTime := 1400000000 } ∧
    (NewMatchResult sampleEnv Faults.none sampleWorld sampleReplay alice).world.db.results
      = [{ Id := 1, MapId := 3, MatchmakerMatchId := 7, DateTime := 1400000000 }] ∧
    (NewMatchResult sampleEnv Faults.none sampleWorld sampleReplay alice).world.db.sources
      = [{ Id := 1, MatchId := 0, ReplayHash := "h1" }] ∧
    (NewMatchResult sampleEnv Faults.none sampleWorld sampleReplay alice).world.db.players.map
        (fun r => r.MatchId) = [1, 1] := by
  decide

end Erosd
